import Mathlib

/-!
# OAuth2 login / callback handlers of `pkg/restapi/issuer/operation`

A shallow embedding of `operations.go`.  Handlers are pure functions from an
environment (secure random source, clock, token endpoint), a response recorder
and a request to a `Result` holding the recorder after the handler ran, the
codes handed to the token exchange (in call order) and the log entries.

Go strings are embedded as Lean `String`s; UTF-8 is injective, so equality of
two Lean strings is equality of the byte sequences Go compares.
-/

namespace EdgeSandbox

/-! ## Constants of `operations.go` -/

def login : String := "/login"
def callback : String := "/callback"

def oauthCookieName : String := "oauthstate"
def stateFormKey : String := "state"
def codeFormKey : String := "code"

def defaultCookieExpiry : Int := 20
def stateValueLength : Nat := 16

/-! ## `time` -/

/-- An instant, in nanoseconds since the Unix epoch. -/
abbrev Time := Int

/-- A `time.Duration`, in nanoseconds. -/
abbrev Duration := Int

def Nanosecond : Duration := 1
def Second : Duration := 1000000000 * Nanosecond
def Minute : Duration := 60 * Second

/-- The method `Time.Add`. -/
def Time.Add (t : Time) (d : Duration) : Time := t + d

/-! ## `net/http` -/

abbrev Error := String

def ErrNoCookie : Error := "http: named cookie not present"

def StatusOK : Nat := 200
def StatusTemporaryRedirect : Nat := 307

def MethodGet : String := "GET"
def MethodHead : String := "HEAD"

/-- The table `statusText`, at the two codes this package produces. -/
def StatusText (code : Nat) : String :=
  if code = StatusTemporaryRedirect then "Temporary Redirect"
  else if code = StatusOK then "OK"
  else ""

/-- The struct `http.Cookie`; every field has Go's zero value unless set.
`Expires = none` is the zero `time.Time`. -/
structure Cookie where
  Name : String := ""
  Value : String := ""
  Path : String := ""
  Domain : String := ""
  Expires : Option Time := none
  RawExpires : String := ""
  MaxAge : Int := 0
  Secure : Bool := false
  HttpOnly : Bool := false
  SameSite : Nat := 0
  Raw : String := ""
  Unparsed : List String := []
  deriving DecidableEq, Repr

/-- An incoming request: its method, the path of its URL (`r.URL.Path`), the
cookies of its `Cookie` header in header order, and its parsed form (URL query and
body parameters). -/
structure Request where
  Method : String := MethodGet
  Path : String := "/"
  Cookies : List Cookie := []
  Form : List (String × List String) := []
  deriving DecidableEq, Repr

/-- The method `Request.Cookie`: the first cookie of that name, or `ErrNoCookie`. -/
def Request.Cookie (r : Request) (name : String) : Except Error Cookie :=
  match r.Cookies.find? (fun c => c.Name == name) with
  | some c => .ok c
  | none => .error ErrNoCookie

/-- The method `Request.FormValue`: the first value of the key, `""` when the
key is absent or has no value. -/
def Request.FormValue (r : Request) (key : String) : String :=
  match r.Form.lookup key with
  | some (v :: _) => v
  | _ => ""

/-- A response writer that records what is written (`httptest.ResponseRecorder`).
`SetCookies` holds the `Set-Cookie` header lines as cookies, one per line. -/
structure ResponseRecorder where
  Code : Nat := StatusOK
  Header : List (String × String) := []
  SetCookies : List Cookie := []
  Body : String := ""
  wroteHeader : Bool := false
  deriving DecidableEq, Repr

/-- A fresh recorder, as a server hands to a handler. -/
def NewRecorder : ResponseRecorder := {}

/-- The call `Header().Get`. -/
def ResponseRecorder.HeaderGet (w : ResponseRecorder) (key : String) : Option String :=
  w.Header.lookup key

/-- The call `Header().Set`: replaces the value of the key. -/
def ResponseRecorder.HeaderSet (w : ResponseRecorder) (key value : String) : ResponseRecorder :=
  { w with Header := (w.Header.filter (fun kv => kv.1 != key)) ++ [(key, value)] }

/-- The method `WriteHeader`: the first status code written wins. -/
def ResponseRecorder.WriteHeader (w : ResponseRecorder) (code : Nat) : ResponseRecorder :=
  if w.wroteHeader then w else { w with Code := code, wroteHeader := true }

/-- The method `Write`: writes status 200 if none was written, then appends to the body. -/
def ResponseRecorder.Write (w : ResponseRecorder) (s : String) : ResponseRecorder :=
  let w1 := w.WriteHeader StatusOK
  { w1 with Body := w1.Body ++ s }

/-- The replacer `htmlEscape` of `net/http`. -/
def htmlEscape (s : String) : String :=
  String.join (s.toList.map (fun c =>
    if c = '&' then "&amp;"
    else if c = '<' then "&lt;"
    else if c = '>' then "&gt;"
    else if c = '"' then "&#34;"
    else if c.toNat = 39 then "&#39;"
    else c.toString))

/-! ### `net/url`: what `http.Redirect` asks of `url.Parse` -/

/-- The check `stringContainsCTLByte`: a byte below blank, or DEL. -/
def stringContainsCTLByte (s : List Char) : Bool :=
  s.any (fun c => c.toNat < 32 || c.toNat = 127)

/-- The check `ishex`. -/
def ishex (c : Char) : Bool :=
  c.isDigit || (97 ≤ c.toNat && c.toNat ≤ 102) || (65 ≤ c.toNat && c.toNat ≤ 70)

/-- Whether `unescape` accepts a text outside host mode: every `%` is followed by
two hexadecimal digits. -/
def validEscapes : List Char → Bool
  | [] => true
  | c :: rest =>
    if c = '%' then
      match rest with
      | a :: b :: rest2 => ishex a && ishex b && validEscapes rest2
      | _ => false
    else validEscapes rest

/-- The outcome of `getscheme`. -/
inductive SchemeResult
  | missing
  | noScheme
  | scheme (name rest : List Char)
  deriving DecidableEq, Repr

/-- The scan of `getscheme` from a position, `first` telling whether it is the
first byte: letters go on; digits, `+`, `-`, `.` go on unless first; `:` ends the
scheme (an error when first); any other byte means there is no scheme. -/
def getschemeFrom : Bool → List Char → SchemeResult
  | _, [] => SchemeResult.noScheme
  | first, c :: rest =>
    if c.isAlpha then
      match getschemeFrom false rest with
      | SchemeResult.scheme name tail => SchemeResult.scheme (c :: name) tail
      | other => other
    else if c.isDigit || c = '+' || c = '-' || c = '.' then
      if first then SchemeResult.noScheme
      else
        match getschemeFrom false rest with
        | SchemeResult.scheme name tail => SchemeResult.scheme (c :: name) tail
        | other => other
    else if c = ':' then
      if first then SchemeResult.missing else SchemeResult.scheme [] rest
    else SchemeResult.noScheme

/-- The function `getscheme`. -/
def getscheme (rawurl : List Char) : SchemeResult := getschemeFrom true rawurl

/-- Whether a scheme was found. -/
def SchemeResult.isScheme : SchemeResult → Bool
  | SchemeResult.scheme _ _ => true
  | _ => false

/-- The URL starts with a scheme, as an absolute URL does: a letter, then letters,
digits, `+`, `-` or `.`, then `:`. -/
def hasURLScheme (url : String) : Bool := (getscheme url.toList).isScheme

/-- Every byte of the text is ASCII. -/
def isASCII (s : String) : Bool := s.toList.all (fun c => c.toNat < 128)

/-- The check `validUserinfo`. -/
def validUserinfo (s : List Char) : Bool :=
  s.all (fun c => c.isAlphanum
    || c.toNat ∈ [45, 46, 95, 58, 126, 33, 36, 38, 39, 40, 41, 42, 43, 44, 59, 61, 37, 64])

/-- Whether `parseAuthority` accepts the authority and finds an empty host.  The
host is what follows the last `@`; with a host that is not empty the outcome is an
error or a host, and `false` here.  With an empty host the user information before
the `@`, if any, must be valid and unescape. -/
def authorityHostless (authority : List Char) : Bool :=
  if '@' ∈ authority then
    let host := (authority.reverse.takeWhile (fun c => c != '@')).reverse
    let userinfo := ((authority.reverse.dropWhile (fun c => c != '@')).drop 1).reverse
    host = [] && validUserinfo userinfo
      && (if ':' ∈ userinfo then
            validEscapes (userinfo.takeWhile (fun c => c != ':'))
              && validEscapes ((userinfo.dropWhile (fun c => c != ':')).drop 1)
          else validEscapes userinfo)
  else authority = []

/-- The test `err == nil && u.Scheme == "" && u.Host == ""` that `http.Redirect`
makes on `url.Parse(url)`.  `Parse` cuts the fragment at the first `#`, rejects
control bytes, takes `*` as a path, reads the scheme, drops the query from the first
`?`, rejects a first path segment with a colon when the rest is not rooted, parses an
authority after `//` (not after `///`), unescapes the path and then the fragment. -/
def redirectRewrites (url : List Char) : Bool :=
  let u := url.takeWhile (fun c => c != '#')
  let frag := (url.dropWhile (fun c => c != '#')).drop 1
  if stringContainsCTLByte u then false
  else if u = ['*'] then validEscapes frag
  else
    match getscheme u with
    | SchemeResult.missing => false
    | SchemeResult.scheme _ _ => false
    | SchemeResult.noScheme =>
      let rest := u.takeWhile (fun c => c != '?')
      if rest.head? != some '/' && ':' ∈ rest.takeWhile (fun c => c != '/') then false
      else if rest.take 2 = ['/', '/'] && rest.take 3 != ['/', '/', '/'] then
        authorityHostless ((rest.drop 2).takeWhile (fun c => c != '/'))
          && validEscapes ((rest.drop 2).dropWhile (fun c => c != '/'))
          && validEscapes frag
      else validEscapes rest && validEscapes frag

/-! ### `path` -/

/-- The directory part of `path.Split`: the path through its last slash. -/
def pathDir (p : List Char) : List Char :=
  (p.reverse.dropWhile (fun c => c != '/')).reverse

/-- The elements of a path, those between its slashes. -/
def pathElems : List Char → List (List Char)
  | [] => [[]]
  | c :: rest =>
    if c = '/' then [] :: pathElems rest
    else
      match pathElems rest with
      | [] => [[c]]
      | e :: es => (c :: e) :: es

/-- The pass of `path.Clean` over the elements, `kept` being the elements kept so
far, last first: empty elements and `.` are dropped; `..` removes the last kept
element that is not `..`, and is otherwise dropped in a rooted path and kept in a
relative one. -/
def cleanElems (rooted : Bool) : List (List Char) → List (List Char) → List (List Char)
  | kept, [] => kept.reverse
  | kept, e :: es =>
    if e = [] ∨ e = ['.'] then cleanElems rooted kept es
    else if e = ['.', '.'] then
      match kept with
      | top :: below =>
        if top = ['.', '.'] then
          (if rooted then cleanElems rooted kept es else cleanElems rooted (e :: kept) es)
        else cleanElems rooted below es
      | [] => if rooted then cleanElems rooted [] es else cleanElems rooted [e] es
    else cleanElems rooted (e :: kept) es

/-- The function `path.Clean`. -/
def pathClean (p : List Char) : List Char :=
  let rooted := p.head? = some '/'
  let body := List.intercalate ['/'] (cleanElems rooted [] (pathElems p))
  if rooted then '/' :: body
  else if body = [] then ['.'] else body

/-! ### `http.Redirect` -/

/-- The function `hexEscapeNonASCII`: every byte outside ASCII becomes `%` and its
two lower-case hexadecimal digits. -/
def hexEscapeNonASCII (s : String) : String :=
  String.mk (s.toList.flatMap (fun c =>
    if c.toNat < 128 then [c]
    else (String.utf8EncodeChar c).flatMap (fun b =>
      ['%', "0123456789abcdef".toList.getD (b.toNat / 16) '0',
            "0123456789abcdef".toList.getD (b.toNat % 16) '0'])))

/-- The target `http.Redirect` redirects to.  A target that parses without scheme
and host is made absolute: unless it starts with `/` the directory of the request
path is put before it, then the part before the first `?` is cleaned, keeping a
trailing slash.  Any other target is left as it is. -/
def redirectURL (r : Request) (url : String) : String :=
  if redirectRewrites url.toList then
    let oldpath := if r.Path = "" then "/" else r.Path
    let u1 := if url.toList.head? = some '/' then url.toList
      else pathDir oldpath.toList ++ url.toList
    let u2 := u1.takeWhile (fun c => c != '?')
    let query := u1.dropWhile (fun c => c != '?')
    let trailing := u2.getLast? = some '/'
    let u3 := pathClean u2
    let u4 := if trailing && u3.getLast? != some '/' then u3 ++ ['/'] else u3
    String.mk (u4 ++ query)
  else url

/-- The function `http.Redirect`: `Location` is the target, escaped; `Content-Type`
is set for GET and HEAD and a short HTML body is written for GET, unless a content
type was set before. -/
def Redirect (w : ResponseRecorder) (r : Request) (url : String) (code : Nat) :
    ResponseRecorder :=
  let target := redirectURL r url
  let hadCT := (w.HeaderGet "Content-Type").isSome
  let w1 := w.HeaderSet "Location" (hexEscapeNonASCII target)
  let w2 := if !hadCT && (r.Method == MethodGet || r.Method == MethodHead)
    then w1.HeaderSet "Content-Type" "text/html; charset=utf-8" else w1
  let w3 := w2.WriteHeader code
  if !hadCT && r.Method == MethodGet
    then w3.Write ("<a href=\"" ++ htmlEscape target ++ "\">" ++ StatusText code
      ++ "</a>.\n" ++ "\n")
    else w3

/-- Cookie-name bytes (`isTokenRune`): ASCII letters, digits and the token punctuation. -/
def isTokenRune (c : Char) : Bool :=
  c.isAlphanum || c.toNat ∈ [33, 35, 36, 37, 38, 39, 42, 43, 45, 46, 94, 95, 96, 124, 126]

/-- The check `isCookieNameValid`. -/
def isCookieNameValid (name : String) : Bool :=
  name != "" && name.toList.all isTokenRune

/-- The check `validCookieValueByte`, on a character. -/
def validCookieValueByte (c : Char) : Bool :=
  32 ≤ c.toNat && c.toNat < 127 && c != '"' && c != ';' && c != '\\'

/-- The function `sanitizeCookieValue`: the value as `Cookie.String` writes it to the
`Set-Cookie` line.  Invalid bytes are dropped; a value with a blank or a comma is quoted. -/
def sanitizeCookieValue (v : String) : String :=
  let kept := v.toList.filter validCookieValueByte
  if kept = [] then ""
  else if ' ' ∈ kept ∨ ',' ∈ kept then String.mk ('"' :: (kept ++ ['"']))
  else String.mk kept

/-- The function `http.SetCookie`: adds a `Set-Cookie` line when the cookie
serialises, which is when its name is valid. -/
def SetCookie (w : ResponseRecorder) (cookie : Cookie) : ResponseRecorder :=
  if isCookieNameValid cookie.Name then { w with SetCookies := w.SetCookies ++ [cookie] } else w

/-! ## `encoding/base64` -/

/-- A byte. -/
abbrev Byte := Fin 256

/-- The alphabet `encodeURL` of `base64.URLEncoding`. -/
def encodeURL : List Char :=
  "ABCDEFGHIJKLMNOPQRSTUVWXYZabcdefghijklmnopqrstuvwxyz0123456789-_".toList

/-- The padding character `StdPadding`. -/
def StdPadding : Char := '='

/-- The character of a 6-bit value in the URL alphabet. -/
def encChar (n : Nat) : Char := encodeURL.getD n 'A'

/-- The method `URLEncoding.Encode` on a byte list: each 3 bytes give 4 characters,
a remainder of 1 or 2 bytes gives 2 or 3 characters and is padded to 4 with `=`. -/
def base64Encode : List Byte → List Char
  | a :: b :: c :: rest =>
    let val := a.val * 65536 + b.val * 256 + c.val
    encChar (val / 262144 % 64) :: encChar (val / 4096 % 64) ::
      encChar (val / 64 % 64) :: encChar (val % 64) :: base64Encode rest
  | [a, b] =>
    let val := a.val * 65536 + b.val * 256
    [encChar (val / 262144 % 64), encChar (val / 4096 % 64), encChar (val / 64 % 64), StdPadding]
  | [a] =>
    let val := a.val * 65536
    [encChar (val / 262144 % 64), encChar (val / 4096 % 64), StdPadding, StdPadding]
  | [] => []

/-- The method `URLEncoding.EncodeToString`. -/
def EncodeToString (src : List Byte) : String := String.mk (base64Encode src)

/-- The 6-bit value of a character of the URL alphabet. -/
def decChar (c : Char) : Option Nat :=
  let i := encodeURL.indexOf c
  if i < 64 then some i else none

/-- The method `URLEncoding.Decode` on a character list free of line breaks:
each group of 4 characters gives 3 bytes; the last group may end in `=` (2 bytes)
or `==` (1 byte); padding anywhere else is an error. -/
def base64Decode : List Char → Option (List Byte)
  | [] => some []
  | c0 :: c1 :: c2 :: c3 :: rest =>
    if rest = [] ∧ c3 = StdPadding then
      if c2 = StdPadding then
        match decChar c0, decChar c1 with
        | some v0, some v1 => some [Fin.ofNat ((v0 * 64 + v1) / 16)]
        | _, _ => none
      else
        match decChar c0, decChar c1, decChar c2 with
        | some v0, some v1, some v2 =>
          let val := v0 * 4096 + v1 * 64 + v2
          some [Fin.ofNat (val / 1024), Fin.ofNat (val / 4 % 256)]
        | _, _, _ => none
    else
      match decChar c0, decChar c1, decChar c2, decChar c3, base64Decode rest with
      | some v0, some v1, some v2, some v3, some tail =>
        let val := v0 * 262144 + v1 * 4096 + v2 * 64 + v3
        some (Fin.ofNat (val / 65536) :: Fin.ofNat (val / 256 % 256) :: Fin.ofNat (val % 256)
          :: tail)
      | _, _, _, _, _ => none
  | _ => none

/-- The method `URLEncoding.DecodeString`; carriage returns and line feeds are skipped. -/
def DecodeString (s : String) : Option (List Byte) :=
  base64Decode (s.toList.filter (fun c => c != '\r' && c != '\n'))

/-! ## `crypto/rand`, the clock and the token endpoint -/

/-- The struct `oauth2.Endpoint`. -/
structure Endpoint where
  AuthURL : String := ""
  TokenURL : String := ""
  deriving DecidableEq, Repr

/-- The struct `oauth2.Config`. -/
structure OAuth2Config where
  ClientID : String := ""
  ClientSecret : String := ""
  Endpoint : Endpoint := {}
  RedirectURL : String := ""
  Scopes : List String := []
  deriving DecidableEq, Repr

/-- The struct `oauth2.Token`. -/
structure Token where
  AccessToken : String := ""
  TokenType : String := ""
  RefreshToken : String := ""
  Expiry : Option Time := none
  deriving DecidableEq, Repr

/-- What a handler meets outside the process during one request: the bytes the
secure random source delivers to one `Read` and the error it returns, the
reading of the clock, and the answer of the token endpoint to an exchange. -/
structure Env where
  randBytes : List Byte
  randErr : Option Error
  now : Time
  exchange : OAuth2Config → String → Except Error Token

/-- The function `rand.Read` on buffer `b`, an `io.ReadFull` on the random reader: the
delivered bytes overwrite the front of the buffer, the rest of it is left as it was.
An error can be returned up to Go 1.23; from Go 1.24 the function returns none (a
failing source stops the process), which is `randErr = none`. -/
def randRead (env : Env) (b : List Byte) : List Byte × Option Error :=
  let got := env.randBytes.take b.length
  (got ++ b.drop got.length, env.randErr)

/-! ## `net/url` and `oauth2.Config.AuthCodeURL` -/

/-- Upper-case hexadecimal digit (`upperhex`). -/
def upperhex (n : Nat) : Char := "0123456789ABCDEF".toList.getD n '0'

/-- The UTF-8 bytes of a character. -/
def utf8Bytes (c : Char) : List Nat := (String.utf8EncodeChar c).map UInt8.toNat

/-- Bytes that `QueryEscape` leaves as they are: ASCII letters, digits, `-`, `_`, `.`, `~`. -/
def isUnreserved (c : Char) : Bool :=
  c.isAlphanum || c = '-' || c = '_' || c = '.' || c = '~'

/-- What `QueryEscape` writes for one character. -/
def escapeChar (c : Char) : List Char :=
  if isUnreserved c then [c]
  else if c = ' ' then ['+']
  else (utf8Bytes c).flatMap (fun b => ['%', upperhex (b / 16), upperhex (b % 16)])

/-- The function `url.QueryEscape`. -/
def QueryEscape (s : String) : String := String.mk (s.toList.flatMap escapeChar)

/-- Query parameters (`url.Values`) with one value per key, kept in key order. -/
abbrev Values := List (String × String)

/-- The method `Values.Encode`: `key=value` pairs, both escaped, joined with `&`,
in key order. -/
def Values.Encode (v : Values) : String :=
  "&".intercalate (v.map (fun kv => QueryEscape kv.1 ++ "=" ++ QueryEscape kv.2))

/-- The parameters `AuthCodeURL` sets, listed in key order: `client_id`,
`redirect_uri` unless empty, `response_type`, `scope` unless there is none,
`state` unless empty. -/
def authCodeValues (c : OAuth2Config) (state : String) : Values :=
  [("client_id", c.ClientID)]
    ++ (if c.RedirectURL != "" then [("redirect_uri", c.RedirectURL)] else [])
    ++ [("response_type", "code")]
    ++ (if c.Scopes.length > 0 then [("scope", " ".intercalate c.Scopes)] else [])
    ++ (if state != "" then [("state", state)] else [])

/-- The method `oauth2.Config.AuthCodeURL`: the authorization endpoint, then `?`
(or `&` when the endpoint has a query already), then the encoded parameters. -/
def OAuth2Config.AuthCodeURL (c : OAuth2Config) (state : String) : String :=
  c.Endpoint.AuthURL ++ (if '?' ∈ c.Endpoint.AuthURL.toList then "&" else "?")
    ++ Values.Encode (authCodeValues c state)

/-! ## `encoding/json` on a string -/

/-- Lower-case hexadecimal digit. -/
def lowerhex (n : Nat) : Char := "0123456789abcdef".toList.getD n '0'

/-- What the encoder writes for one character of a string, HTML escaping on. -/
def jsonEscapeChar (c : Char) : List Char :=
  if c = '\\' then ['\\', '\\']
  else if c = '"' then ['\\', '"']
  else if c = '\n' then ['\\', 'n']
  else if c = '\r' then ['\\', 'r']
  else if c = '\t' then ['\\', 't']
  else if c.toNat < 32 ∨ c = '<' ∨ c = '>' ∨ c = '&' then
    ['\\', 'u', '0', '0', lowerhex (c.toNat / 16), lowerhex (c.toNat % 16)]
  else if c.toNat = 8232 then "\\u2028".toList
  else if c.toNat = 8233 then "\\u2029".toList
  else [c]

/-- The JSON text of a Go string: a quoted string literal. -/
def jsonMarshalString (s : String) : String :=
  String.mk ('"' :: (s.toList.flatMap jsonEscapeChar ++ ['"']))

/-- The call `json.NewEncoder(w).Encode(v)` for a string `v`: the JSON text and a
line feed are written to `w`; the recorder never fails a write. -/
def EncoderEncode (w : ResponseRecorder) (v : String) : ResponseRecorder × Option Error :=
  (w.Write (jsonMarshalString v ++ "\n"), none)

/-! ## `operations.go` -/

/-- Log levels used by the package (`logrus`). -/
inductive Level
  | ErrorLevel
  | WarnLevel
  deriving DecidableEq, Repr

/-- One log entry. -/
structure LogEntry where
  level : Level
  msg : String
  deriving DecidableEq, Repr

/-- What a handler did: the response recorder after it ran, the codes it handed
to the token exchange in call order, and what it logged. -/
structure Result where
  w : ResponseRecorder
  exchanged : List String := []
  logs : List LogEntry := []

/-- A handler function (`http.HandlerFunc`) run in an environment. -/
abbrev HandlerFunc := Env → ResponseRecorder → Request → Result

/-- Modelled from the spec: the handler descriptor built by `support.NewHTTPHandler`,
whose source is not part of the files at hand; the spec describes it as the triple
(path, HTTP method, handler function) read back by `Path`, `Method` and `Handle`. -/
structure Handler where
  Path : String
  Method : String
  Handle : HandlerFunc

/-- Modelled from the spec: the constructor `support.NewHTTPHandler` of a descriptor. -/
def NewHTTPHandler (path method : String) (handle : HandlerFunc) : Handler :=
  { Path := path, Method := method, Handle := handle }

/-- The struct `Operation`. -/
structure Operation where
  handlers : List Handler := []
  cmsConfig : OAuth2Config

/-- The struct `Config`. -/
structure Config where
  OAuth2Config : OAuth2Config

/-- The constant `validCredential`, line by line. -/
def validCredential : String := String.join [
  "\x7b\n",
  "  \"@context\": \"https://www.w3.org/2018/credentials/v1\",\n",
  "  \"id\": \"http://example.edu/credentials/1872\",\n",
  "  \"type\": \"VerifiableCredential\",\n",
  "  \"credentialSubject\": \x7b\n",
  "    \"id\": \"did:example:ebfeb1f712ebc6f1c276e12ec21\"\n",
  "  \x7d,\n",
  "  \"issuer\": \x7b\n",
  "    \"id\": \"did:example:76e12ec712ebc6f1c221ebfeb1f\",\n",
  "    \"name\": \"Example University\"\n",
  "  \x7d,\n",
  "  \"issuanceDate\": \"2010-01-01T19:23:24Z\",\n",
  "  \"proof\": \x7b\n",
  "    \"type\": \"RsaSignature2018\",\n",
  "    \"created\": \"2018-06-18T21:19:10Z\",\n",
  "    \"proofPurpose\": \"assertionMethod\",\n",
  "    \"verificationMethod\": \"https://example.com/jdoe/keys/1\",\n",
  "    \"jws\": \"eyJhbGciOiJQUzI1NiIsImI2NCI6ZmFsc2UsImNyaXQiOlsiYjY0Il19..DJBMvvFAIC00nSGB6Tn0XKbbF9XrsaJZREWvR2aONYTQQxnyXirtXnlewJMBBn2h9hfcGZrvnC1b6PgWmukzFJ1IiH1dWgnDIS81BH-IxXnPkbuYDeySorc4QU9MJxdVkY5EL4HYbcIfwKj6X4LBQ2_ZHZIu1jdqLcRZqHcsDF5KKylKc1THn5VRWy5WhYg_gBnyWny8E6Qkrze53MR7OuAmmNJ1m1nN8SxDrG6a08L78J0-Fbas5OjAQz3c17GY8mVuDPOBIOVjMEghBlgl3nOi1ysxbRGhHLEK4s0KKbeRogZdgt1DkQxDFxxn41QWDw_mmMCjs9qxg0zcZzqEJw\"\n",
  "  \x7d,\n",
  "  \"expirationDate\": \"2020-01-01T19:23:24Z\",\n",
  "  \"credentialStatus\": \x7b\n",
  "    \"id\": \"https://example.edu/status/24\",\n",
  "    \"type\": \"CredentialStatusList2017\"\n",
  "  \x7d\n",
  "\x7d\n"]

/-- The function `generateStateOauthCookie`: returns the state, the recorder with
the cookie set, and the log entries. -/
def generateStateOauthCookie (env : Env) (w : ResponseRecorder) :
    String × ResponseRecorder × List LogEntry :=
  let b : List Byte := List.replicate stateValueLength 0
  let (b1, err) := randRead env b
  let logs : List LogEntry := match err with
    | some e => [{ level := Level.ErrorLevel, msg := e }]
    | none => []
  let state := EncodeToString b1
  let cookie : Cookie := { Name := oauthCookieName, Value := state,
                           Expires := some (Time.Add env.now (defaultCookieExpiry * Minute)) }
  (state, SetCookie w cookie, logs)

/-- The method `Operation.writeResponse`. -/
def Operation.writeResponse (_c : Operation) (rw : ResponseRecorder) (v : String) :
    ResponseRecorder × List LogEntry :=
  match EncoderEncode rw v with
  | (rw1, some err) =>
    (rw1, [{ level := Level.ErrorLevel, msg := "Unable to send error response, " ++ err }])
  | (rw1, none) => (rw1, [])

/-- The method `Operation.Login`. -/
def Operation.Login (c : Operation) : HandlerFunc := fun env w r =>
  let (oauthState, w1, logs) := generateStateOauthCookie env w
  let u := c.cmsConfig.AuthCodeURL oauthState
  { w := Redirect w1 r u StatusTemporaryRedirect, logs := logs }

/-- The method `Operation.Callback`. -/
def Operation.Callback (c : Operation) : HandlerFunc := fun env w r =>
  match r.Cookie oauthCookieName with
  | .error err =>
    { w := Redirect w r "/" StatusTemporaryRedirect,
      logs := [{ level := Level.ErrorLevel, msg := err }] }
  | .ok oauthState =>
    if r.FormValue stateFormKey ≠ oauthState.Value then
      { w := Redirect w r "/" StatusTemporaryRedirect,
        logs := [{ level := Level.WarnLevel, msg := "invalid oauth state" }] }
    else
      match env.exchange c.cmsConfig (r.FormValue codeFormKey) with
      | .error err =>
        { w := Redirect w r "/" StatusTemporaryRedirect,
          exchanged := [r.FormValue codeFormKey],
          logs := [{ level := Level.ErrorLevel, msg := err }] }
      | .ok _ =>
        let (w1, logs) := c.writeResponse w validCredential
        { w := w1, exchanged := [r.FormValue codeFormKey], logs := logs }

/-- The method `Operation.registerHandler`. -/
def Operation.registerHandler (c : Operation) : Operation :=
  { c with handlers := [
      NewHTTPHandler login MethodGet c.Login,
      NewHTTPHandler callback MethodGet c.Callback ] }

/-- The function `New`. -/
def New (config : Config) : Operation :=
  let svc : Operation := { cmsConfig := config.OAuth2Config }
  svc.registerHandler

/-- The method `Operation.GetRESTHandlers`. -/
def Operation.GetRESTHandlers (c : Operation) : List Handler := c.handlers

/-! ## Reading JSON text -/

/-- The kinds of JSON value. -/
inductive JSONKind
  | object
  | array
  | string
  | number
  | boolean
  | null
  deriving DecidableEq, Repr

/-- JSON white space: blank, tab, line feed, carriage return. -/
def isJSONSpace (c : Char) : Bool := c = ' ' || c = '\t' || c = '\n' || c = '\r'

/-- The kind of the top-level value of a JSON text, read off its first character
after white space: `{` object, `[` array, `"` string, `t` or `f` boolean, `n` null,
`-` or a digit number. -/
def jsonKind (s : String) : Option JSONKind :=
  match s.toList.dropWhile isJSONSpace with
  | [] => none
  | c :: _ =>
    if c = '{' then some JSONKind.object
    else if c = '[' then some JSONKind.array
    else if c = '"' then some JSONKind.string
    else if c = 't' ∨ c = 'f' then some JSONKind.boolean
    else if c = 'n' then some JSONKind.null
    else if c = '-' ∨ c.isDigit then some JSONKind.number
    else none

/-- The value of a hexadecimal digit. -/
def hexVal (c : Char) : Option Nat :=
  if c.isDigit then some (c.toNat - 48)
  else if 97 ≤ c.toNat ∧ c.toNat ≤ 102 then some (c.toNat - 87)
  else if 65 ≤ c.toNat ∧ c.toNat ≤ 70 then some (c.toNat - 55)
  else none

/-- Reads a JSON string literal after its opening quote: the characters it denotes
and the text after the closing quote.  Raw control characters are rejected; a `\u`
escape must name a character outside the surrogate range (paired surrogate escapes
are not read). -/
def jsonStringBody : List Char → Option (List Char × List Char)
  | [] => none
  | c :: rest =>
    if c = '"' then some ([], rest)
    else if c = '\\' then
      match rest with
      | [] => none
      | e :: rest1 =>
        if e = 'u' then
          match rest1 with
          | h3 :: h2 :: h1 :: h0 :: rest2 =>
            match hexVal h3, hexVal h2, hexVal h1, hexVal h0, jsonStringBody rest2 with
            | some v3, some v2, some v1, some v0, some (cs, tail) =>
              let n := v3 * 4096 + v2 * 256 + v1 * 16 + v0
              if 55296 ≤ n ∧ n < 57344 then none else some (Char.ofNat n :: cs, tail)
            | _, _, _, _, _ => none
          | _ => none
        else
          let d : Option Char :=
            if e = '"' then some '"'
            else if e = '\\' then some '\\'
            else if e = '/' then some '/'
            else if e = 'b' then some (Char.ofNat 8)
            else if e = 'f' then some (Char.ofNat 12)
            else if e = 'n' then some '\n'
            else if e = 'r' then some '\r'
            else if e = 't' then some '\t'
            else none
          match d, jsonStringBody rest1 with
          | some x, some (cs, tail) => some (x :: cs, tail)
          | _, _ => none
    else if c.toNat < 32 then none
    else
      match jsonStringBody rest with
      | some (cs, tail) => some (c :: cs, tail)
      | none => none

/-- Reads a JSON text that consists of one string literal, white space allowed
around it: the string it denotes, or `none` when the text is not of that form. -/
def jsonReadString (s : String) : Option String :=
  match s.toList.dropWhile isJSONSpace with
  | [] => none
  | c :: rest =>
    if c = '"' then
      match jsonStringBody rest with
      | some (cs, tail) => if tail.all isJSONSpace then some (String.mk cs) else none
      | none => none
    else none

/-! ## Sample inputs -/

/-- A configuration with an absolute authorization endpoint. -/
def sampleConfig : Config :=
  { OAuth2Config := { ClientID := "client", ClientSecret := "secret",
                      Endpoint := { AuthURL := "https://auth.example/authorize",
                                    TokenURL := "https://auth.example/token" },
                      RedirectURL := "https://rp.example/callback",
                      Scopes := ["openid", "profile"] } }

/-- An environment whose random source delivers the bytes 0, 1, ..., 15 and whose
token endpoint accepts every code. -/
def sampleEnv : Env :=
  { randBytes := [0, 1, 2, 3, 4, 5, 6, 7, 8, 9, 10, 11, 12, 13, 14, 15], randErr := none,
    now := 1600000000000000000, exchange := fun _ _ => .ok { AccessToken := "tok" } }

/-- An environment whose random source fails without delivering a byte. -/
def failedRandEnv : Env :=
  { randBytes := [], randErr := some "entropy source unavailable",
    now := 1600000000000000000, exchange := fun _ _ => .ok { AccessToken := "tok" } }

/-- A callback request whose cookie and `state` agree, with code `abc`. -/
def matchingRequest : Request :=
  { Cookies := [{ Name := "oauthstate", Value := "X" }],
    Form := [("state", ["X"]), ("code", ["abc"])] }

/-! ## Claim predicates -/

/-- The request carries no cookie named `oauthstate`. -/
def NoStateCookie (r : Request) : Prop := ∀ ck ∈ r.Cookies, ck.Name ≠ oauthCookieName

/-- The callback aborts: the state cookie is missing, or its value differs from the
`state` parameter, or the two agree and the token exchange returns an error. -/
def CallbackAborts (c : Operation) (env : Env) (r : Request) : Prop :=
  NoStateCookie r
  ∨ (∃ ck, r.Cookie oauthCookieName = .ok ck ∧ r.FormValue stateFormKey ≠ ck.Value)
  ∨ (∃ ck e, r.Cookie oauthCookieName = .ok ck ∧ r.FormValue stateFormKey = ck.Value
      ∧ env.exchange c.cmsConfig (r.FormValue codeFormKey) = .error e)

/-! ## Lemmas on the recorder -/

theorem Redirect_Code (w : ResponseRecorder) (r : Request) (url : String) (code : Nat)
    (hw : w.wroteHeader = false) : (Redirect w r url code).Code = code := by
  unfold Redirect
  simp only [ResponseRecorder.Write, ResponseRecorder.WriteHeader, ResponseRecorder.HeaderSet, hw]
  split <;> split <;> simp

theorem Redirect_Location (w : ResponseRecorder) (r : Request) (url : String) (code : Nat)
    (hH : w.Header = []) :
    (Redirect w r url code).HeaderGet "Location"
      = some (hexEscapeNonASCII (redirectURL r url)) := by
  have hct : ("Location" == "Content-Type") = false := by decide
  unfold Redirect
  simp only [ResponseRecorder.Write, ResponseRecorder.WriteHeader, ResponseRecorder.HeaderSet,
    ResponseRecorder.HeaderGet, hH]
  split <;> split <;> split <;> simp [List.lookup, hct]

theorem Redirect_SetCookies (w : ResponseRecorder) (r : Request) (url : String) (code : Nat) :
    (Redirect w r url code).SetCookies = w.SetCookies := by
  unfold Redirect
  simp only [ResponseRecorder.Write, ResponseRecorder.WriteHeader, ResponseRecorder.HeaderSet]
  split <;> split <;> split <;> simp

/-- The target `/` is redirected to as it is, whatever the request path. -/
theorem redirectURL_home (r : Request) : redirectURL r "/" = "/" := by
  have h : redirectRewrites "/".toList = true := by decide
  unfold redirectURL
  rw [if_pos h]
  rfl

theorem Redirect_Location_home (w : ResponseRecorder) (r : Request) (code : Nat)
    (hH : w.Header = []) : (Redirect w r "/" code).HeaderGet "Location" = some "/" := by
  rw [Redirect_Location w r "/" code hH, redirectURL_home]
  rfl

/-- The redirect to `/` written to a fresh recorder depends on the request through
its method only. -/
theorem Redirect_method (r : Request) (code : Nat) :
    Redirect NewRecorder r "/" code = Redirect NewRecorder { Method := r.Method } "/" code := by
  unfold Redirect
  simp only [redirectURL_home]

theorem Cookie_of_NoStateCookie (r : Request) (h : NoStateCookie r) :
    r.Cookie oauthCookieName = .error ErrNoCookie := by
  unfold Request.Cookie
  have : r.Cookies.find? (fun c => c.Name == oauthCookieName) = none := by
    rw [List.find?_eq_none]
    intro ck hck
    simpa using h ck hck
  rw [this]

/-- Every abort of the callback writes the redirect to `/` and nothing else. -/
theorem Callback_abort (c : Operation) (env : Env) (r : Request) (h : CallbackAborts c env r) :
    (c.Callback env NewRecorder r).w = Redirect NewRecorder r "/" StatusTemporaryRedirect := by
  unfold Operation.Callback
  rcases h with h | ⟨ck, hck, hne⟩ | ⟨ck, e, hck, heq, hex⟩
  · rw [Cookie_of_NoStateCookie r h]
  · rw [hck]; simp only [ne_eq, hne, not_false_eq_true, ite_true]
  · rw [hck]; simp only [ne_eq, heq, not_true_eq_false, ite_false, hex]

theorem isCookieNameValid_oauthCookieName : isCookieNameValid oauthCookieName = true := by
  decide

/-- The state returned is the base64 text of the buffer after the read. -/
theorem generateStateOauthCookie_state (env : Env) (w : ResponseRecorder) :
    (generateStateOauthCookie env w).1
      = EncodeToString (randRead env (List.replicate stateValueLength 0)).1 := rfl

/-- The cookie is appended to the cookies already set; it carries the returned state. -/
theorem generateStateOauthCookie_w (env : Env) (w : ResponseRecorder) :
    (generateStateOauthCookie env w).2.1
      = { w with SetCookies := w.SetCookies ++
            [{ Name := oauthCookieName, Value := (generateStateOauthCookie env w).1,
               Expires := some (env.now + defaultCookieExpiry * Minute) }] } := by
  simp only [generateStateOauthCookie, SetCookie, isCookieNameValid_oauthCookieName, ite_true,
    Time.Add]

/-- The recorder after `Login`: the state cookie is set, then the redirect is written. -/
theorem Login_w (c : Operation) (env : Env) (w : ResponseRecorder) (r : Request) :
    (c.Login env w r).w
      = Redirect (generateStateOauthCookie env w).2.1 r
          (c.cmsConfig.AuthCodeURL (generateStateOauthCookie env w).1)
          StatusTemporaryRedirect := rfl

/-- The cookies `Login` sets on a fresh recorder. -/
theorem Login_SetCookies (c : Operation) (env : Env) (r : Request) :
    (c.Login env NewRecorder r).w.SetCookies
      = [{ Name := oauthCookieName, Value := (generateStateOauthCookie env NewRecorder).1,
           Expires := some (env.now + defaultCookieExpiry * Minute) }] := by
  rw [Login_w, Redirect_SetCookies, generateStateOauthCookie_w]
  rfl

/-! ## Lemmas on the base64 text -/

theorem encChar_mem (n : Nat) : encChar n ∈ encodeURL := by
  by_cases h : n < 64
  · interval_cases n <;> decide
  · have : encChar n = 'A' := by
      unfold encChar
      exact List.getD_eq_default _ _ (by simpa [encodeURL] using Nat.not_lt.mp h)
    rw [this]; decide

theorem decChar_encChar (n : Nat) (h : n < 64) : decChar (encChar n) = some n := by
  interval_cases n <;> decide

theorem encChar_ne_pad (n : Nat) : encChar n ≠ StdPadding := by
  intro h
  have := encChar_mem n
  rw [h] at this
  revert this
  decide

theorem base64Encode_length (l : List Byte) :
    (base64Encode l).length = 4 * ((l.length + 2) / 3) := by
  induction l using base64Encode.induct with
  | case1 a b c rest ih =>
    simp only [base64Encode, List.length_cons, ih]
    omega
  | case2 a b => simp [base64Encode]
  | case3 a => simp [base64Encode]
  | case4 => rfl

/-- Decoding undoes encoding. -/
theorem base64Decode_base64Encode (l : List Byte) :
    base64Decode (base64Encode l) = some l := by
  induction l using base64Encode.induct with
  | case1 a b c rest ih =>
    have ha := a.isLt
    have hb := b.isLt
    have hc := c.isLt
    simp only [base64Encode]
    generalize hval : a.val * 65536 + b.val * 256 + c.val = val
    have e0 : decChar (encChar (val / 262144 % 64)) = some (val / 262144 % 64) :=
      decChar_encChar _ (Nat.mod_lt _ (by norm_num))
    have e1 : decChar (encChar (val / 4096 % 64)) = some (val / 4096 % 64) :=
      decChar_encChar _ (Nat.mod_lt _ (by norm_num))
    have e2 : decChar (encChar (val / 64 % 64)) = some (val / 64 % 64) :=
      decChar_encChar _ (Nat.mod_lt _ (by norm_num))
    have e3 : decChar (encChar (val % 64)) = some (val % 64) :=
      decChar_encChar _ (Nat.mod_lt _ (by norm_num))
    have hA : Fin.ofNat ((val / 262144 % 64 * 262144 + val / 4096 % 64 * 4096
        + val / 64 % 64 * 64 + val % 64) / 65536) = a := by
      apply Fin.ext
      show _ % 256 = a.val
      omega
    have hB : Fin.ofNat ((val / 262144 % 64 * 262144 + val / 4096 % 64 * 4096
        + val / 64 % 64 * 64 + val % 64) / 256 % 256) = b := by
      apply Fin.ext
      show _ % 256 = b.val
      omega
    have hC : Fin.ofNat ((val / 262144 % 64 * 262144 + val / 4096 % 64 * 4096
        + val / 64 % 64 * 64 + val % 64) % 256) = c := by
      apply Fin.ext
      show _ % 256 = c.val
      omega
    rw [base64Decode]
    simp only [encChar_ne_pad, and_false, ite_false, e0, e1, e2, e3, ih, hA, hB, hC]
  | case2 a b =>
    have ha := a.isLt
    have hb := b.isLt
    simp only [base64Encode]
    generalize hval : a.val * 65536 + b.val * 256 = val
    have e0 : decChar (encChar (val / 262144 % 64)) = some (val / 262144 % 64) :=
      decChar_encChar _ (Nat.mod_lt _ (by norm_num))
    have e1 : decChar (encChar (val / 4096 % 64)) = some (val / 4096 % 64) :=
      decChar_encChar _ (Nat.mod_lt _ (by norm_num))
    have e2 : decChar (encChar (val / 64 % 64)) = some (val / 64 % 64) :=
      decChar_encChar _ (Nat.mod_lt _ (by norm_num))
    have hA : Fin.ofNat ((val / 262144 % 64 * 4096 + val / 4096 % 64 * 64
        + val / 64 % 64) / 1024) = a := by
      apply Fin.ext
      show _ % 256 = a.val
      omega
    have hB : Fin.ofNat ((val / 262144 % 64 * 4096 + val / 4096 % 64 * 64
        + val / 64 % 64) / 4 % 256) = b := by
      apply Fin.ext
      show _ % 256 = b.val
      omega
    rw [base64Decode]
    simp only [and_self, ite_true, encChar_ne_pad, ite_false, e0, e1, e2, hA, hB]
  | case3 a =>
    have ha := a.isLt
    simp only [base64Encode]
    generalize hval : a.val * 65536 = val
    have e0 : decChar (encChar (val / 262144 % 64)) = some (val / 262144 % 64) :=
      decChar_encChar _ (Nat.mod_lt _ (by norm_num))
    have e1 : decChar (encChar (val / 4096 % 64)) = some (val / 4096 % 64) :=
      decChar_encChar _ (Nat.mod_lt _ (by norm_num))
    have hA : Fin.ofNat ((val / 262144 % 64 * 64 + val / 4096 % 64) / 16) = a := by
      apply Fin.ext
      show _ % 256 = a.val
      omega
    rw [base64Decode]
    simp only [and_self, ite_true, e0, e1, hA]
  | case4 => rfl

theorem base64Encode_mem (l : List Byte) :
    ∀ ch ∈ base64Encode l, ch ∈ encodeURL ∨ ch = StdPadding := by
  induction l using base64Encode.induct with
  | case1 a b c rest ih =>
    intro ch hch
    simp only [base64Encode, List.mem_cons] at hch
    rcases hch with h | h | h | h | h
    · exact Or.inl (h ▸ encChar_mem _)
    · exact Or.inl (h ▸ encChar_mem _)
    · exact Or.inl (h ▸ encChar_mem _)
    · exact Or.inl (h ▸ encChar_mem _)
    · exact ih ch h
  | case2 a b =>
    intro ch hch
    simp only [base64Encode, List.mem_cons, List.not_mem_nil, or_false] at hch
    rcases hch with h | h | h | h
    · exact Or.inl (h ▸ encChar_mem _)
    · exact Or.inl (h ▸ encChar_mem _)
    · exact Or.inl (h ▸ encChar_mem _)
    · exact Or.inr h
  | case3 a =>
    intro ch hch
    simp only [base64Encode, List.mem_cons, List.not_mem_nil, or_false] at hch
    rcases hch with h | h | h | h
    · exact Or.inl (h ▸ encChar_mem _)
    · exact Or.inl (h ▸ encChar_mem _)
    · exact Or.inr h
    · exact Or.inr h
  | case4 => intro ch hch; simp [base64Encode] at hch

/-- The text of `3k + 1` bytes is alphabet characters followed by `==`. -/
theorem base64Encode_pad2 (l : List Byte) (h : l.length % 3 = 1) :
    ∃ pre, base64Encode l = pre ++ [StdPadding, StdPadding]
      ∧ ∀ ch ∈ pre, ch ∈ encodeURL := by
  induction l using base64Encode.induct with
  | case1 a b c rest ih =>
    have hr : rest.length % 3 = 1 := by
      simp only [List.length_cons] at h
      omega
    obtain ⟨pre, hpre, hmem⟩ := ih hr
    refine ⟨encChar ((a.val * 65536 + b.val * 256 + c.val) / 262144 % 64) ::
      encChar ((a.val * 65536 + b.val * 256 + c.val) / 4096 % 64) ::
      encChar ((a.val * 65536 + b.val * 256 + c.val) / 64 % 64) ::
      encChar ((a.val * 65536 + b.val * 256 + c.val) % 64) :: pre, ?_, ?_⟩
    · simp only [base64Encode, hpre, List.cons_append]
    · intro ch hch
      simp only [List.mem_cons] at hch
      rcases hch with h | h | h | h | h
      · exact h ▸ encChar_mem _
      · exact h ▸ encChar_mem _
      · exact h ▸ encChar_mem _
      · exact h ▸ encChar_mem _
      · exact hmem ch h
  | case2 a b => simp at h
  | case3 a =>
    refine ⟨[encChar (a.val * 65536 / 262144 % 64), encChar (a.val * 65536 / 4096 % 64)], ?_, ?_⟩
    · simp only [base64Encode, List.cons_append, List.nil_append]
    · intro ch hch
      simp only [List.mem_cons, List.mem_singleton, List.not_mem_nil, or_false] at hch
      rcases hch with h | h
      · exact h ▸ encChar_mem _
      · exact h ▸ encChar_mem _
  | case4 => simp at h

theorem alphabet_no_line_break :
    ∀ ch ∈ encodeURL, (ch != '\r' && ch != '\n') = true := by
  decide

theorem DecodeString_EncodeToString (l : List Byte) :
    DecodeString (EncodeToString l) = some l := by
  unfold DecodeString EncodeToString
  have hf : (base64Encode l).filter (fun c => c != '\r' && c != '\n') = base64Encode l := by
    rw [List.filter_eq_self]
    intro ch hch
    rcases base64Encode_mem l ch hch with h | h
    · exact alphabet_no_line_break ch h
    · subst h; decide
  show base64Decode ((base64Encode l).filter _) = _
  rw [hf, base64Decode_base64Encode]

/-! ## Lemmas on the random read -/

theorem randRead_length (env : Env) (b : List Byte) : (randRead env b).1.length = b.length := by
  simp only [randRead, List.length_append, List.length_take, List.length_drop]
  omega

theorem randRead_full (env : Env) (b : List Byte) (h : env.randBytes.length = b.length) :
    (randRead env b).1 = env.randBytes := by
  simp only [randRead]
  rw [← h, List.take_length, List.drop_eq_nil_of_le (by omega), List.append_nil]

theorem randRead_zeros (env : Env) (n : Nat) :
    (randRead env (List.replicate n 0)).1
      = env.randBytes.take n ++ List.replicate (n - (env.randBytes.take n).length) 0 := by
  simp only [randRead, List.length_replicate, List.drop_replicate]

/-! ## Lemmas on the authorization URL -/

theorem escapeChar_alphabet : ∀ ch ∈ encodeURL, escapeChar ch = [ch] := by
  decide

theorem escapeChar_pad : escapeChar StdPadding = ['%', '3', 'D'] := by
  decide

theorem flatMap_escapeChar_alphabet (pre : List Char) (h : ∀ ch ∈ pre, ch ∈ encodeURL) :
    pre.flatMap escapeChar = pre := by
  induction pre with
  | nil => rfl
  | cons a t ih =>
    rw [List.flatMap_cons, escapeChar_alphabet a (h a (List.mem_cons_self _ _)),
      ih (fun ch hch => h ch (List.mem_cons_of_mem _ hch))]
    rfl

/-- In a query, base64 text with two padding characters keeps its alphabet characters
and has each `=` written as `%3D`. -/
theorem QueryEscape_padded (pre : List Char) (h : ∀ ch ∈ pre, ch ∈ encodeURL) :
    QueryEscape (String.mk (pre ++ [StdPadding, StdPadding]))
      = String.mk pre ++ "%3D%3D" := by
  unfold QueryEscape
  show String.mk ((pre ++ [StdPadding, StdPadding]).flatMap escapeChar) = _
  rw [List.flatMap_append, flatMap_escapeChar_alphabet pre h]
  simp only [List.flatMap_cons, List.flatMap_nil, escapeChar_pad]
  rfl

theorem validCookieValueByte_alphabet :
    ∀ ch ∈ encodeURL, validCookieValueByte ch = true ∧ ch ≠ ' ' ∧ ch ≠ ',' := by
  decide

/-- Base64 text is written to the `Set-Cookie` line as it is. -/
theorem sanitizeCookieValue_base64 (l : List Byte) :
    sanitizeCookieValue (EncodeToString l) = EncodeToString l := by
  have hall : ∀ ch ∈ base64Encode l, validCookieValueByte ch = true ∧ ch ≠ ' ' ∧ ch ≠ ',' := by
    intro ch hch
    rcases base64Encode_mem l ch hch with h | h
    · exact validCookieValueByte_alphabet ch h
    · subst h; decide
  have hf : (base64Encode l).filter validCookieValueByte = base64Encode l := by
    rw [List.filter_eq_self]
    exact fun ch hch => (hall ch hch).1
  unfold sanitizeCookieValue EncodeToString
  show (if (base64Encode l).filter validCookieValueByte = [] then ""
    else if ' ' ∈ (base64Encode l).filter validCookieValueByte
        ∨ ',' ∈ (base64Encode l).filter validCookieValueByte
      then String.mk ('"' :: ((base64Encode l).filter validCookieValueByte ++ ['"']))
      else String.mk ((base64Encode l).filter validCookieValueByte)) = _
  rw [hf]
  by_cases hnil : base64Encode l = []
  · rw [hnil]; rfl
  · have hno : ¬ (' ' ∈ base64Encode l ∨ ',' ∈ base64Encode l) := by
      rintro (h | h)
      · exact (hall _ h).2.1 rfl
      · exact (hall _ h).2.2 rfl
    simp only [hnil, hno, ite_false]

theorem intercalate_go_append (acc sep x : String) (l : List String) :
    String.intercalate.go acc sep (l ++ [x]) = String.intercalate.go acc sep l ++ sep ++ x := by
  induction l generalizing acc with
  | nil => simp [String.intercalate.go]
  | cons a t ih => simp [String.intercalate.go, ih]

theorem intercalate_append_singleton (sep a x : String) (l : List String) :
    sep.intercalate (a :: l ++ [x]) = sep.intercalate (a :: l) ++ sep ++ x := by
  simp only [String.intercalate, List.cons_append, intercalate_go_append]

/-- A non-empty state is the last parameter of the authorization URL: the URL is the
one built without state, followed by `&state=` and the escaped state. -/
theorem AuthCodeURL_state (c : OAuth2Config) (state : String) (hs : state ≠ "") :
    c.AuthCodeURL state = c.AuthCodeURL "" ++ "&state=" ++ QueryEscape state := by
  have hv : authCodeValues c state = authCodeValues c "" ++ [("state", state)] := by
    simp [authCodeValues, hs]
  have hst : "&" ++ (QueryEscape "state" ++ "=") = "&state=" := by decide
  obtain ⟨a, l, hl⟩ : ∃ a l, (authCodeValues c "").map
      (fun kv => QueryEscape kv.1 ++ "=" ++ QueryEscape kv.2) = a :: l :=
    ⟨_, _, rfl⟩
  unfold OAuth2Config.AuthCodeURL Values.Encode
  rw [hv, List.map_append, hl, List.map_cons, List.map_nil, intercalate_append_singleton]
  simp only [String.append_assoc]
  rw [← String.append_assoc "&" (QueryEscape "state") , ← String.append_assoc ("&" ++ _) "=" ]
  rw [String.append_assoc "&", hst]

/-- The value of the `state` parameter of the authorization URL is the state given. -/
theorem authCodeValues_state (c : OAuth2Config) (state : String) (hs : state ≠ "") :
    (authCodeValues c state).lookup "state" = some state := by
  have h1 : ("state" == "client_id") = false := by decide
  have h2 : ("state" == "redirect_uri") = false := by decide
  have h3 : ("state" == "response_type") = false := by decide
  have h4 : ("state" == "scope") = false := by decide
  unfold authCodeValues
  split_ifs <;> simp_all [List.lookup]

/-! ## Lemmas on the JSON text of a string -/

theorem hexVal_lowerhex (n : Nat) (h : n < 16) : hexVal (lowerhex n) = some n := by
  interval_cases n <;> decide

theorem jsonStringBody_cons (c : Char) (rest : List Char) :
    jsonStringBody (c :: rest) =
    if c = '"' then some ([], rest)
    else if c = '\\' then
      match rest with
      | [] => none
      | e :: rest1 =>
        if e = 'u' then
          match rest1 with
          | h3 :: h2 :: h1 :: h0 :: rest2 =>
            match hexVal h3, hexVal h2, hexVal h1, hexVal h0, jsonStringBody rest2 with
            | some v3, some v2, some v1, some v0, some (cs, tail) =>
              let n := v3 * 4096 + v2 * 256 + v1 * 16 + v0
              if 55296 ≤ n ∧ n < 57344 then none else some (Char.ofNat n :: cs, tail)
            | _, _, _, _, _ => none
          | _ => none
        else
          let d : Option Char :=
            if e = '"' then some '"'
            else if e = '\\' then some '\\'
            else if e = '/' then some '/'
            else if e = 'b' then some (Char.ofNat 8)
            else if e = 'f' then some (Char.ofNat 12)
            else if e = 'n' then some '\n'
            else if e = 'r' then some '\r'
            else if e = 't' then some '\t'
            else none
          match d, jsonStringBody rest1 with
          | some x, some (cs, tail) => some (x :: cs, tail)
          | _, _ => none
    else if c.toNat < 32 then none
    else
      match jsonStringBody rest with
      | some (cs, tail) => some (c :: cs, tail)
      | none => none := by
  conv_lhs => rw [jsonStringBody.eq_def]

theorem jsonStringBody_simple (e x : Char) (rest : List Char)
    (hu : e ≠ 'u')
    (hd : (if e = '"' then some '"'
            else if e = '\\' then some '\\'
            else if e = '/' then some '/'
            else if e = 'b' then some (Char.ofNat 8)
            else if e = 'f' then some (Char.ofNat 12)
            else if e = 'n' then some '\n'
            else if e = 'r' then some '\r'
            else if e = 't' then some '\t'
            else none) = some x) :
    jsonStringBody ('\\' :: e :: rest)
      = (jsonStringBody rest).map (fun p => (x :: p.1, p.2)) := by
  rw [jsonStringBody_cons]
  have hq : ('\\' = '"') = False := by decide
  simp only [hq, ite_false, ite_true, hu, hd]
  cases jsonStringBody rest <;> rfl

theorem jsonStringBody_hex (h3 h2 h1 h0 : Char) (v3 v2 v1 v0 : Nat) (rest : List Char)
    (e3 : hexVal h3 = some v3) (e2 : hexVal h2 = some v2) (e1 : hexVal h1 = some v1)
    (e0 : hexVal h0 = some v0)
    (hs : ¬ (55296 ≤ v3 * 4096 + v2 * 256 + v1 * 16 + v0
              ∧ v3 * 4096 + v2 * 256 + v1 * 16 + v0 < 57344)) :
    jsonStringBody ('\\' :: 'u' :: h3 :: h2 :: h1 :: h0 :: rest)
      = (jsonStringBody rest).map
          (fun p => (Char.ofNat (v3 * 4096 + v2 * 256 + v1 * 16 + v0) :: p.1, p.2)) := by
  rw [jsonStringBody_cons]
  have hq : ('\\' = '"') = False := by decide
  simp only [hq, ite_false, ite_true, e3, e2, e1, e0]
  cases jsonStringBody rest with
  | none => rfl
  | some p => simp only [hs, ite_false, Option.map_some']

/-- Reading back what the encoder wrote for one character gives that character. -/
theorem jsonStringBody_jsonEscapeChar (c : Char) (rest : List Char) :
    jsonStringBody (jsonEscapeChar c ++ rest)
      = (jsonStringBody rest).map (fun p => (c :: p.1, p.2)) := by
  unfold jsonEscapeChar
  split_ifs with h1 h2 h3 h4 h5 h6 h7 h8
  · subst h1
    exact jsonStringBody_simple '\\' '\\' rest (by decide) (by decide)
  · subst h2
    exact jsonStringBody_simple '"' '"' rest (by decide) (by decide)
  · subst h3
    exact jsonStringBody_simple 'n' '\n' rest (by decide) (by decide)
  · subst h4
    exact jsonStringBody_simple 'r' '\r' rest (by decide) (by decide)
  · subst h5
    exact jsonStringBody_simple 't' '\t' rest (by decide) (by decide)
  · have hlt : c.toNat < 128 := by
      rcases h6 with h | h | h | h
      · omega
      · subst h; decide
      · subst h; decide
      · subst h; decide
    have key := jsonStringBody_hex '0' '0' (lowerhex (c.toNat / 16)) (lowerhex (c.toNat % 16))
      0 0 (c.toNat / 16) (c.toNat % 16) rest (by decide) (by decide)
      (hexVal_lowerhex _ (by omega)) (hexVal_lowerhex _ (by omega)) (by omega)
    have hn : 0 * 4096 + 0 * 256 + c.toNat / 16 * 16 + c.toNat % 16 = c.toNat := by omega
    rw [hn, Char.ofNat_toNat] at key
    exact key
  · have key := jsonStringBody_hex '2' '0' '2' '8' 2 0 2 8 rest (by decide) (by decide)
      (by decide) (by decide) (by decide)
    have hn : 2 * 4096 + 0 * 256 + 2 * 16 + 8 = c.toNat := by omega
    rw [hn, Char.ofNat_toNat] at key
    exact key
  · have key := jsonStringBody_hex '2' '0' '2' '9' 2 0 2 9 rest (by decide) (by decide)
      (by decide) (by decide) (by decide)
    have hn : 2 * 4096 + 0 * 256 + 2 * 16 + 9 = c.toNat := by omega
    rw [hn, Char.ofNat_toNat] at key
    exact key
  · have hge : ¬ c.toNat < 32 := fun h => h6 (Or.inl h)
    rw [List.cons_append, List.nil_append, jsonStringBody_cons]
    simp only [h2, h1, ite_false, hge]
    cases jsonStringBody rest <;> rfl

theorem jsonStringBody_flatMap (l tail : List Char) :
    jsonStringBody (l.flatMap jsonEscapeChar ++ '"' :: tail) = some (l, tail) := by
  induction l with
  | nil =>
    rw [List.flatMap_nil, List.nil_append, jsonStringBody_cons]
    simp
  | cons c l ih =>
    rw [List.flatMap_cons, List.append_assoc, jsonStringBody_jsonEscapeChar, ih]
    rfl

/-- The JSON text the encoder writes for a string, read as JSON, is that string. -/
theorem jsonReadString_jsonMarshalString (s : String) :
    jsonReadString (jsonMarshalString s ++ "\n") = some s := by
  have hl : (jsonMarshalString s ++ "\n").toList
      = '"' :: (s.toList.flatMap jsonEscapeChar ++ '"' :: ['\n']) := by
    simp [jsonMarshalString, String.toList]
  unfold jsonReadString
  rw [hl]
  have hd : List.dropWhile isJSONSpace ('"' :: (s.toList.flatMap jsonEscapeChar ++ '"' :: ['\n']))
      = '"' :: (s.toList.flatMap jsonEscapeChar ++ '"' :: ['\n']) := by
    rw [List.dropWhile_cons]
    have : isJSONSpace '"' = false := by decide
    simp [this]
  rw [hd]
  simp only [ite_true, jsonStringBody_flatMap]
  have : List.all ['\n'] isJSONSpace = true := by decide
  simp [this]

/-- The JSON text the encoder writes for a string is a JSON string, whatever it holds. -/
theorem jsonKind_jsonMarshalString (s : String) :
    jsonKind (jsonMarshalString s ++ "\n") = some JSONKind.string := by
  have hl : (jsonMarshalString s ++ "\n").toList
      = '"' :: (s.toList.flatMap jsonEscapeChar ++ '"' :: ['\n']) := by
    simp [jsonMarshalString, String.toList]
  unfold jsonKind
  rw [hl, List.dropWhile_cons]
  have : isJSONSpace '"' = false := by decide
  have h1 : ('"' = '\x7b') = False := by decide
  have h2 : ('"' = '[') = False := by decide
  simp only [this, h1, h2, ite_false, Bool.false_eq_true, ite_true]

/-! ## Lemmas on the redirect target -/

theorem isScheme_wrap (c : Char) (x : SchemeResult) :
    (match x with
      | SchemeResult.scheme name tail => SchemeResult.scheme (c :: name) tail
      | other => other).isScheme = x.isScheme := by
  cases x <;> rfl

theorem getschemeFrom_cons (first : Bool) (c : Char) (rest : List Char) :
    getschemeFrom first (c :: rest) =
      if c.isAlpha then
        match getschemeFrom false rest with
        | SchemeResult.scheme name tail => SchemeResult.scheme (c :: name) tail
        | other => other
      else if c.isDigit || c = '+' || c = '-' || c = '.' then
        if first then SchemeResult.noScheme
        else
          match getschemeFrom false rest with
          | SchemeResult.scheme name tail => SchemeResult.scheme (c :: name) tail
          | other => other
      else if c = ':' then
        if first then SchemeResult.missing else SchemeResult.scheme [] rest
      else SchemeResult.noScheme := by
  conv_lhs => rw [getschemeFrom.eq_def]

theorem getschemeFrom_hash (first : Bool) (rest : List Char) :
    (getschemeFrom first ('#' :: rest)).isScheme = false := by
  have h1 : '#'.isAlpha = false := by decide
  have h2 : ('#'.isDigit || decide ('#' = '+') || decide ('#' = '-') || decide ('#' = '.'))
      = false := by decide
  have h3 : ¬ ('#' = ':') := by decide
  rw [getschemeFrom_cons]
  simp only [h1, h2, h3, Bool.false_eq_true, ite_false]
  rfl

/-- A scheme found in a text is found in every text that continues it, cut at its
first `#`. -/
theorem getschemeFrom_takeWhile_append (l t : List Char) (first : Bool)
    (h : (getschemeFrom first l).isScheme = true) :
    (getschemeFrom first ((l ++ t).takeWhile (fun c => c != '#'))).isScheme = true := by
  induction l generalizing first with
  | nil => simp [getschemeFrom, SchemeResult.isScheme] at h
  | cons c rest ih =>
    have hne : (c != '#') = true := by
      simp only [bne_iff_ne, ne_eq]
      intro hc
      subst hc
      rw [getschemeFrom_hash] at h
      cases h
    rw [getschemeFrom_cons] at h
    rw [List.cons_append, List.takeWhile_cons, hne, if_pos rfl, getschemeFrom_cons]
    by_cases ha : c.isAlpha = true
    · rw [if_pos ha] at h ⊢
      rw [isScheme_wrap] at h ⊢
      exact ih false h
    · rw [if_neg ha] at h ⊢
      by_cases hd : (c.isDigit || c = '+' || c = '-' || c = '.') = true
      · rw [if_pos hd] at h ⊢
        cases first with
        | true => simp [SchemeResult.isScheme] at h
        | false =>
          simp only [Bool.false_eq_true, ite_false] at h ⊢
          rw [isScheme_wrap] at h ⊢
          exact ih false h
      · rw [if_neg hd] at h ⊢
        by_cases hcol : c = ':'
        · rw [if_pos hcol] at h ⊢
          cases first with
          | true => simp [SchemeResult.isScheme] at h
          | false => rfl
        · rw [if_neg hcol] at h
          simp [SchemeResult.isScheme] at h

/-- A target that starts with a scheme is not rewritten. -/
theorem redirectRewrites_of_scheme (a t : String) (h : hasURLScheme a = true) :
    redirectRewrites (a ++ t).toList = false := by
  have hs := getschemeFrom_takeWhile_append a.toList t.toList true h
  have hl : (a ++ t).toList = a.toList ++ t.toList := by simp [String.toList]
  unfold redirectRewrites
  rw [hl]
  generalize (a.toList ++ t.toList).takeWhile (fun c => c != '#') = u at hs ⊢
  by_cases h1 : stringContainsCTLByte u = true
  · simp only [h1, ite_true]
  · by_cases h2 : u = ['*']
    · subst h2
      have hstar : (getschemeFrom true ['*']).isScheme = false := by decide
      rw [hstar] at hs
      cases hs
    · simp only [h1, h2, Bool.false_eq_true, ite_false]
      unfold getscheme
      cases hg : getschemeFrom true u with
      | missing => rfl
      | scheme n tl => rfl
      | noScheme => rw [hg] at hs; simp [SchemeResult.isScheme] at hs

theorem redirectURL_of_scheme (r : Request) (a t : String) (h : hasURLScheme a = true) :
    redirectURL r (a ++ t) = a ++ t := by
  unfold redirectURL
  rw [redirectRewrites_of_scheme a t h]
  rfl

theorem isAlphanum_ascii (c : Char) (h : c.isAlphanum = true) : c.toNat < 128 := by
  simp only [Char.isAlphanum, Char.isAlpha, Char.isUpper, Char.isLower, Char.isDigit,
    Bool.or_eq_true, Bool.and_eq_true, decide_eq_true_eq, ge_iff_le] at h
  simp only [UInt32.le_def, Fin.le_def] at h
  have : c.toNat = c.val.val.val := rfl
  rw [this]
  rcases h with (⟨_, h⟩ | ⟨_, h⟩) | ⟨_, h⟩ <;> exact lt_of_le_of_lt h (by decide)

theorem upperhex_ascii (n : Nat) : (upperhex n).toNat < 128 := by
  by_cases h : n < 16
  · interval_cases n <;> decide
  · have : upperhex n = '0' := by
      unfold upperhex
      exact List.getD_eq_default _ _ (by simpa using Nat.not_lt.mp h)
    rw [this]; decide

theorem escapeChar_ascii (c : Char) : ∀ ch ∈ escapeChar c, ch.toNat < 128 := by
  intro ch hch
  unfold escapeChar at hch
  split_ifs at hch with h1 h2
  · simp only [List.mem_singleton] at hch
    subst hch
    simp only [isUnreserved, Bool.or_eq_true, decide_eq_true_eq] at h1
    rcases h1 with (((h | h) | h) | h) | h
    · exact isAlphanum_ascii ch h
    · subst h; decide
    · subst h; decide
    · subst h; decide
    · subst h; decide
  · simp only [List.mem_singleton] at hch
    subst hch; decide
  · simp only [List.mem_flatMap, List.mem_cons, List.not_mem_nil, or_false] at hch
    obtain ⟨b, _, hb⟩ := hch
    rcases hb with hb | hb | hb
    · subst hb; decide
    · subst hb; exact upperhex_ascii _
    · subst hb; exact upperhex_ascii _

theorem isASCII_iff (s : String) : isASCII s = true ↔ ∀ ch ∈ s.toList, ch.toNat < 128 := by
  simp [isASCII, List.all_eq_true]

theorem isASCII_append (a b : String) (ha : isASCII a = true) (hb : isASCII b = true) :
    isASCII (a ++ b) = true := by
  rw [isASCII_iff] at ha hb ⊢
  intro ch hch
  simp only [String.toList, String.data_append, List.mem_append] at hch
  rcases hch with h | h
  · exact ha ch h
  · exact hb ch h

theorem isASCII_QueryEscape (s : String) : isASCII (QueryEscape s) = true := by
  rw [isASCII_iff]
  intro ch hch
  have hmem : ch ∈ s.toList.flatMap escapeChar := hch
  rw [List.mem_flatMap] at hmem
  obtain ⟨c, _, hc⟩ := hmem
  exact escapeChar_ascii c ch hc

theorem intercalate_go_all (acc sep : String) (l : List String) (p : Char → Prop)
    (hacc : ∀ c ∈ acc.toList, p c) (hsep : ∀ c ∈ sep.toList, p c)
    (hl : ∀ s ∈ l, ∀ c ∈ s.toList, p c) :
    ∀ c ∈ (String.intercalate.go acc sep l).toList, p c := by
  induction l generalizing acc with
  | nil => simpa [String.intercalate.go] using hacc
  | cons a t ih =>
    simp only [String.intercalate.go]
    apply ih
    · intro c hc
      simp only [String.toList, String.data_append, List.mem_append] at hc
      rcases hc with (hc | hc) | hc
      · exact hacc c hc
      · exact hsep c hc
      · exact hl a (List.mem_cons_self _ _) c hc
    · exact fun s hs => hl s (List.mem_cons_of_mem _ hs)

theorem isASCII_Encode (v : Values) : isASCII (Values.Encode v) = true := by
  have hpair : ∀ s ∈ v.map (fun kv => QueryEscape kv.1 ++ "=" ++ QueryEscape kv.2),
      ∀ c ∈ s.toList, c.toNat < 128 := by
    intro s hs
    rw [List.mem_map] at hs
    obtain ⟨kv, _, rfl⟩ := hs
    exact (isASCII_iff _).mp (isASCII_append _ _
      (isASCII_append _ _ (isASCII_QueryEscape _) (by decide)) (isASCII_QueryEscape _))
  rw [isASCII_iff]
  unfold Values.Encode
  cases hm : v.map (fun kv => QueryEscape kv.1 ++ "=" ++ QueryEscape kv.2) with
  | nil => intro c hc; simp [String.intercalate] at hc
  | cons a t =>
    rw [hm] at hpair
    simp only [String.intercalate]
    exact intercalate_go_all a "&" t (fun c => c.toNat < 128)
      (hpair a (List.mem_cons_self _ _)) (by decide)
      (fun s hs => hpair s (List.mem_cons_of_mem _ hs))

/-- The authorization URL is ASCII when the configured endpoint is. -/
theorem isASCII_AuthCodeURL (c : OAuth2Config) (state : String)
    (h : isASCII c.Endpoint.AuthURL = true) : isASCII (c.AuthCodeURL state) = true := by
  unfold OAuth2Config.AuthCodeURL
  refine isASCII_append _ _ (isASCII_append _ _ h ?_) (isASCII_Encode _)
  split <;> decide

theorem hexEscapeNonASCII_of_isASCII (s : String) (h : isASCII s = true) :
    hexEscapeNonASCII s = s := by
  rw [isASCII_iff] at h
  have key : ∀ l : List Char, (∀ ch ∈ l, ch.toNat < 128) →
      l.flatMap (fun c =>
        if c.toNat < 128 then [c]
        else (String.utf8EncodeChar c).flatMap (fun b =>
          ['%', "0123456789abcdef".toList.getD (b.toNat / 16) '0',
                "0123456789abcdef".toList.getD (b.toNat % 16) '0'])) = l := by
    intro l hl
    induction l with
    | nil => rfl
    | cons a t ih =>
      rw [List.flatMap_cons, if_pos (hl a (List.mem_cons_self _ _)),
        ih (fun ch hch => hl ch (List.mem_cons_of_mem _ hch))]
      rfl
  unfold hexEscapeNonASCII
  rw [key s.toList h]
  rfl

theorem alphabet_ascii : ∀ ch ∈ encodeURL, ch.toNat < 128 := by
  decide

theorem hexEscapeNonASCII_append (a b : String) :
    hexEscapeNonASCII (a ++ b) = hexEscapeNonASCII a ++ hexEscapeNonASCII b := by
  unfold hexEscapeNonASCII
  have hl : (a ++ b).toList = a.toList ++ b.toList := by simp [String.toList]
  rw [hl, List.flatMap_append]
  rfl

theorem AuthCodeURL_append (c : OAuth2Config) (state : String) :
    c.AuthCodeURL state = c.Endpoint.AuthURL
      ++ ((if '?' ∈ c.Endpoint.AuthURL.toList then "&" else "?")
        ++ Values.Encode (authCodeValues c state)) := by
  unfold OAuth2Config.AuthCodeURL
  rw [String.append_assoc]

/-! ## Lemmas on the state `Login` issues -/

theorem EncodeToString_length (l : List Byte) :
    (EncodeToString l).length = 4 * ((l.length + 2) / 3) := by
  show (base64Encode l).length = _
  exact base64Encode_length l

/-- The state has 24 characters, whatever the random source did. -/
theorem generateStateOauthCookie_length (env : Env) (w : ResponseRecorder) :
    (generateStateOauthCookie env w).1.length = 24 := by
  rw [generateStateOauthCookie_state, EncodeToString_length, randRead_length,
    List.length_replicate]
  rfl

theorem generateStateOauthCookie_ne_empty (env : Env) (w : ResponseRecorder) :
    (generateStateOauthCookie env w).1 ≠ "" := by
  intro h
  have := generateStateOauthCookie_length env w
  rw [h] at this
  revert this
  decide

/-- What `Login` logs is what the state generation logs. -/
theorem Login_logs (c : Operation) (env : Env) (w : ResponseRecorder) (r : Request) :
    (c.Login env w r).logs = (generateStateOauthCookie env w).2.2 := rfl

theorem generateStateOauthCookie_logs (env : Env) (w : ResponseRecorder) :
    (generateStateOauthCookie env w).2.2
      = match env.randErr with
        | some e => [{ level := Level.ErrorLevel, msg := e }]
        | none => [] := rfl

/-- The response of `Login` on a fresh recorder: 307, with `Location` the target
`http.Redirect` makes of the authorization URL carrying the issued state. -/
theorem Login_redirect (c : Operation) (env : Env) (r : Request) :
    (c.Login env NewRecorder r).w.Code = 307
    ∧ (c.Login env NewRecorder r).w.HeaderGet "Location"
        = some (hexEscapeNonASCII (redirectURL r
            (c.cmsConfig.AuthCodeURL (generateStateOauthCookie env NewRecorder).1))) := by
  rw [Login_w, generateStateOauthCookie_w]
  exact ⟨Redirect_Code _ _ _ _ rfl, Redirect_Location _ _ _ _ rfl⟩

/-- With an authorization endpoint that starts with a scheme, `Location` is the
authorization URL, escaped. -/
theorem Login_redirect_scheme (c : Operation) (env : Env) (r : Request)
    (hs : hasURLScheme c.cmsConfig.Endpoint.AuthURL = true) :
    (c.Login env NewRecorder r).w.HeaderGet "Location"
      = some (hexEscapeNonASCII
          (c.cmsConfig.AuthCodeURL (generateStateOauthCookie env NewRecorder).1)) := by
  rw [(Login_redirect c env r).2]
  conv_lhs => rw [AuthCodeURL_append, redirectURL_of_scheme r _ _ hs, ← AuthCodeURL_append]

/-- With an ASCII authorization endpoint that starts with a scheme, `Location` is the
authorization URL as built. -/
theorem Login_redirect_absolute (c : Operation) (env : Env) (r : Request)
    (hs : hasURLScheme c.cmsConfig.Endpoint.AuthURL = true)
    (ha : isASCII c.cmsConfig.Endpoint.AuthURL = true) :
    (c.Login env NewRecorder r).w.HeaderGet "Location"
      = some (c.cmsConfig.AuthCodeURL (generateStateOauthCookie env NewRecorder).1) := by
  rw [Login_redirect_scheme c env r hs,
    hexEscapeNonASCII_of_isASCII _ (isASCII_AuthCodeURL _ _ ha)]

/-! ## Lemmas on the two outcomes of the callback -/

/-- When validation passes and the exchange succeeds, the callback writes the JSON
text of `validCredential` to the recorder and nothing else. -/
theorem Callback_exchange_ok (c : Operation) (env : Env) (r : Request) (ck : Cookie) (tok : Token)
    (hck : r.Cookie oauthCookieName = .ok ck)
    (heq : r.FormValue stateFormKey = ck.Value)
    (hex : env.exchange c.cmsConfig (r.FormValue codeFormKey) = .ok tok) :
    (c.Callback env NewRecorder r).w
      = NewRecorder.Write (jsonMarshalString validCredential ++ "\n") := by
  unfold Operation.Callback
  rw [hck]
  simp only [ne_eq, heq, not_true_eq_false, ite_false, hex]
  rfl

theorem Write_fresh (s : String) :
    (NewRecorder.Write s).Code = 200 ∧ (NewRecorder.Write s).HeaderGet "Location" = none
    ∧ (NewRecorder.Write s).Body = s := by
  refine ⟨rfl, rfl, ?_⟩
  show "" ++ s = s
  exact String.empty_append s

/-- The body of the redirect to `/` is not JSON text of any kind. -/
theorem Redirect_home_not_json (r : Request) :
    jsonKind (Redirect NewRecorder r "/" StatusTemporaryRedirect).Body = none := by
  by_cases hm : r.Method = MethodGet
  · rw [Redirect_method, hm]
    decide
  · have hb : (r.Method == MethodGet) = false := by
      simp only [beq_eq_false_iff_ne, ne_eq]
      exact hm
    have : (Redirect NewRecorder r "/" StatusTemporaryRedirect).Body = "" := by
      unfold Redirect
      simp only [hb, Bool.and_false, Bool.false_eq_true, ite_false]
      split <;> rfl
    rw [this]
    decide

theorem Except_cases {ε α : Type} (x : Except ε α) :
    (∃ e, x = .error e) ∨ (∃ a, x = .ok a) := by
  cases x with
  | error e => exact Or.inl ⟨e, rfl⟩
  | ok a => exact Or.inr ⟨a, rfl⟩

theorem NoStateCookie_of_Cookie_error (r : Request) (e : Error)
    (h : r.Cookie oauthCookieName = .error e) : NoStateCookie r := by
  intro ck hmem hname
  unfold Request.Cookie at h
  cases hf : r.Cookies.find? (fun c => c.Name == oauthCookieName) with
  | none =>
    rw [List.find?_eq_none] at hf
    exact hf ck hmem (by simpa using hname)
  | some x => rw [hf] at h; cases h

/-- Every callback either aborts or passes validation with a successful exchange. -/
theorem Callback_cases (c : Operation) (env : Env) (r : Request) :
    CallbackAborts c env r
    ∨ ∃ ck tok, r.Cookie oauthCookieName = .ok ck ∧ r.FormValue stateFormKey = ck.Value
        ∧ env.exchange c.cmsConfig (r.FormValue codeFormKey) = .ok tok := by
  rcases Except_cases (r.Cookie oauthCookieName) with ⟨e, hck⟩ | ⟨ck, hck⟩
  · exact Or.inl (Or.inl (NoStateCookie_of_Cookie_error r e hck))
  · by_cases heq : r.FormValue stateFormKey = ck.Value
    · rcases Except_cases (env.exchange c.cmsConfig (r.FormValue codeFormKey))
        with ⟨e, hex⟩ | ⟨tok, hex⟩
      · exact Or.inl (Or.inr (Or.inr ⟨ck, e, hck, heq, hex⟩))
      · exact Or.inr ⟨ck, tok, hck, heq, hex⟩
    · exact Or.inl (Or.inr (Or.inl ⟨ck, hck, heq⟩))

/-! ## The callback: validation failures -/

/-- C1: a callback request whose `oauthstate` cookie value differs from its `state`
parameter (compared as is, with no trimming or case folding) gets, for every code and
every behaviour of the token endpoint, a 307 redirect to `/`, and the token exchange is
not invoked. -/
theorem callback_state_mismatch (c : Operation) (env : Env) (r : Request) (oauthState : Cookie)
    (hcookie : r.Cookie oauthCookieName = .ok oauthState)
    (hne : r.FormValue stateFormKey ≠ oauthState.Value) :
    (c.Callback env NewRecorder r).w = Redirect NewRecorder r "/" StatusTemporaryRedirect
    ∧ (c.Callback env NewRecorder r).w.Code = 307
    ∧ (c.Callback env NewRecorder r).w.HeaderGet "Location" = some "/"
    ∧ (c.Callback env NewRecorder r).exchanged = [] := by
  have hw := Callback_abort c env r (Or.inr (Or.inl ⟨oauthState, hcookie, hne⟩))
  refine ⟨hw, ?_, ?_, ?_⟩
  · rw [hw]; exact Redirect_Code _ _ _ _ rfl
  · rw [hw]; exact Redirect_Location_home _ _ _ rfl
  · unfold Operation.Callback
    rw [hcookie]
    simp only [ne_eq, hne, not_false_eq_true, ite_true]

/-- C1 at a request whose state differs from the cookie value in letter case and by a
trailing blank only, with a token endpoint that would accept the code. -/
theorem callback_state_mismatch_witness :
    (({ Cookies := [{ Name := "oauthstate", Value := "token" }],
        Form := [("state", ["Token "]), ("code", ["abc"])] } : Request).Cookie oauthCookieName
      = .ok { Name := "oauthstate", Value := "token" })
    ∧ ({ Cookies := [{ Name := "oauthstate", Value := "token" }],
         Form := [("state", ["Token "]), ("code", ["abc"])] } : Request).FormValue stateFormKey
        ≠ "token"
    ∧ ((New { OAuth2Config := {} }).Callback
          { randBytes := [], randErr := none, now := 0, exchange := fun _ _ => .ok {} }
          NewRecorder
          { Cookies := [{ Name := "oauthstate", Value := "token" }],
            Form := [("state", ["Token "]), ("code", ["abc"])] }).exchanged = [] :=
  ⟨rfl, by decide,
    (callback_state_mismatch (New { OAuth2Config := {} })
      { randBytes := [], randErr := none, now := 0, exchange := fun _ _ => .ok {} }
      { Cookies := [{ Name := "oauthstate", Value := "token" }],
        Form := [("state", ["Token "]), ("code", ["abc"])] }
      { Name := "oauthstate", Value := "token" } rfl (by decide)).2.2.2⟩

/-- C2: a callback request with no `oauthstate` cookie gets, whatever its `state` and
`code`, a 307 redirect to `/` with no token exchange, and its response is the one a
state mismatch gets for a request of the same method. -/
theorem callback_missing_cookie (c : Operation) (env : Env) (r : Request)
    (hmissing : NoStateCookie r) :
    (c.Callback env NewRecorder r).w.Code = 307
    ∧ (c.Callback env NewRecorder r).w.HeaderGet "Location" = some "/"
    ∧ (c.Callback env NewRecorder r).exchanged = []
    ∧ ∀ (env2 : Env) (r2 : Request) (ck : Cookie), r2.Method = r.Method →
        r2.Cookie oauthCookieName = .ok ck → r2.FormValue stateFormKey ≠ ck.Value →
        (c.Callback env2 NewRecorder r2).w = (c.Callback env NewRecorder r).w := by
  have hw := Callback_abort c env r (Or.inl hmissing)
  refine ⟨?_, ?_, ?_, ?_⟩
  · rw [hw]; exact Redirect_Code _ _ _ _ rfl
  · rw [hw]; exact Redirect_Location_home _ _ _ rfl
  · unfold Operation.Callback
    rw [Cookie_of_NoStateCookie r hmissing]
  · intro env2 r2 ck hm hck hne
    rw [hw, Callback_abort c env2 r2 (Or.inr (Or.inl ⟨ck, hck, hne⟩)),
      Redirect_method r2, Redirect_method r, hm]

/-- C2 at a request that carries another cookie only, with matching-looking parameters. -/
theorem callback_missing_cookie_witness :
    NoStateCookie { Cookies := [{ Name := "session", Value := "s" }],
                    Form := [("state", ["s"]), ("code", ["abc"])] }
    ∧ ((New { OAuth2Config := {} }).Callback
          { randBytes := [], randErr := none, now := 0, exchange := fun _ _ => .ok {} }
          NewRecorder
          { Cookies := [{ Name := "session", Value := "s" }],
            Form := [("state", ["s"]), ("code", ["abc"])] }).exchanged = [] :=
  ⟨by unfold NoStateCookie; decide,
    (callback_missing_cookie (New { OAuth2Config := {} })
      { randBytes := [], randErr := none, now := 0, exchange := fun _ _ => .ok {} }
      { Cookies := [{ Name := "session", Value := "s" }],
        Form := [("state", ["s"]), ("code", ["abc"])] }
      (by unfold NoStateCookie; decide)).2.2.1⟩

/-! ## Login, then callback -/

/-- C3: round trip.  For the state `Login` issues (the string `generateStateOauthCookie`
returns, which is the value of the one cookie `Login` sets) and every code, a callback
whose `oauthstate` cookie and `state` parameter both carry that state passes validation:
no mismatch is logged and the token exchange is invoked exactly once, with that code. -/
theorem login_callback_round_trip (c : Operation) (envL envC : Env) (rL r : Request)
    (ck : Cookie) (code : String)
    (hck : r.Cookie oauthCookieName = .ok ck)
    (hval : ck.Value = (generateStateOauthCookie envL NewRecorder).1)
    (hstate : r.FormValue stateFormKey = (generateStateOauthCookie envL NewRecorder).1)
    (hcode : r.FormValue codeFormKey = code) :
    (c.Login envL NewRecorder rL).w.SetCookies.map Cookie.Value
        = [(generateStateOauthCookie envL NewRecorder).1]
    ∧ (c.Callback envC NewRecorder r).exchanged = [code]
    ∧ { level := Level.WarnLevel, msg := "invalid oauth state" }
        ∉ (c.Callback envC NewRecorder r).logs := by
  have heq : r.FormValue stateFormKey = ck.Value := by rw [hstate, hval]
  refine ⟨?_, ?_, ?_⟩
  · rw [Login_SetCookies]; rfl
  · unfold Operation.Callback
    rw [hck]
    simp only [ne_eq, heq, not_true_eq_false, ite_false, hcode]
    cases envC.exchange c.cmsConfig code <;> rfl
  · unfold Operation.Callback
    rw [hck]
    simp only [ne_eq, heq, not_true_eq_false, ite_false, hcode]
    cases envC.exchange c.cmsConfig code <;>
      simp [Operation.writeResponse, EncoderEncode]

/-- C3 at the state issued from the random bytes 0, 1, ..., 15, sent back with code `abc`
to a token endpoint that rejects every code. -/
theorem login_callback_round_trip_witness :
    ((New { OAuth2Config := {} }).Callback
        { randBytes := [], randErr := none, now := 0, exchange := fun _ _ => .error "denied" }
        NewRecorder
        { Cookies := [{ Name := "oauthstate", Value := "AAECAwQFBgcICQoLDA0ODw==" }],
          Form := [("state", ["AAECAwQFBgcICQoLDA0ODw=="]), ("code", ["abc"])] }).exchanged
      = ["abc"] :=
  (login_callback_round_trip (New { OAuth2Config := {} })
    { randBytes := [0, 1, 2, 3, 4, 5, 6, 7, 8, 9, 10, 11, 12, 13, 14, 15], randErr := none,
      now := 0, exchange := fun _ _ => .ok {} }
    { randBytes := [], randErr := none, now := 0, exchange := fun _ _ => .error "denied" }
    {}
    { Cookies := [{ Name := "oauthstate", Value := "AAECAwQFBgcICQoLDA0ODw==" }],
      Form := [("state", ["AAECAwQFBgcICQoLDA0ODw=="]), ("code", ["abc"])] }
    { Name := "oauthstate", Value := "AAECAwQFBgcICQoLDA0ODw==" } "abc"
    rfl (by decide) (by decide) (by decide)).2.1

/-! ## The callback: one response for every failure -/

/-- C5: two callback requests that abort (cookie missing, state mismatch, or exchange
error) both get status 307 with `Location: /`; the response written is determined by
the request method alone, so it depends on neither the cookie value, the state, the code
nor the error, and two aborting requests of one method get the same response; repeating
an aborting request, whatever each repetition meets, gives that same response each time. -/
theorem callback_abort_uniform (c : Operation) (env1 env2 : Env) (r1 r2 : Request)
    (h1 : CallbackAborts c env1 r1) (h2 : CallbackAborts c env2 r2) :
    ((c.Callback env1 NewRecorder r1).w.Code = 307
      ∧ (c.Callback env1 NewRecorder r1).w.HeaderGet "Location" = some "/")
    ∧ ((c.Callback env2 NewRecorder r2).w.Code = 307
      ∧ (c.Callback env2 NewRecorder r2).w.HeaderGet "Location" = some "/")
    ∧ (c.Callback env1 NewRecorder r1).w
        = Redirect NewRecorder { Method := r1.Method } "/" StatusTemporaryRedirect
    ∧ (r1.Method = r2.Method →
        (c.Callback env1 NewRecorder r1).w = (c.Callback env2 NewRecorder r2).w)
    ∧ ∀ envs : List Env, (∀ e ∈ envs, CallbackAborts c e r1) →
        ∀ e ∈ envs, (c.Callback e NewRecorder r1).w = (c.Callback env1 NewRecorder r1).w := by
  have hw1 := Callback_abort c env1 r1 h1
  have hw2 := Callback_abort c env2 r2 h2
  refine ⟨⟨?_, ?_⟩, ⟨?_, ?_⟩, ?_, ?_, ?_⟩
  · rw [hw1]; exact Redirect_Code _ _ _ _ rfl
  · rw [hw1]; exact Redirect_Location_home _ _ _ rfl
  · rw [hw2]; exact Redirect_Code _ _ _ _ rfl
  · rw [hw2]; exact Redirect_Location_home _ _ _ rfl
  · rw [hw1]; exact Redirect_method r1 _
  · intro hm
    rw [hw1, hw2, Redirect_method r1, Redirect_method r2, hm]
  · intro envs hall e he
    rw [hw1, Callback_abort c e r1 (hall e he)]

/-- C5 at a request without cookie and a matching request whose exchange fails. -/
theorem callback_abort_uniform_witness :
    ((New { OAuth2Config := {} }).Callback
        { randBytes := [], randErr := none, now := 0, exchange := fun _ _ => .ok {} }
        NewRecorder { Form := [("state", ["X"]), ("code", ["abc"])] }).w
      = ((New { OAuth2Config := {} }).Callback
        { randBytes := [], randErr := none, now := 7, exchange := fun _ _ => .error "timeout" }
        NewRecorder
        { Cookies := [{ Name := "oauthstate", Value := "X" }],
          Form := [("state", ["X"]), ("code", ["other"])] }).w :=
  (callback_abort_uniform (New { OAuth2Config := {} })
    { randBytes := [], randErr := none, now := 0, exchange := fun _ _ => .ok {} }
    { randBytes := [], randErr := none, now := 7, exchange := fun _ _ => .error "timeout" }
    { Form := [("state", ["X"]), ("code", ["abc"])] }
    { Cookies := [{ Name := "oauthstate", Value := "X" }],
      Form := [("state", ["X"]), ("code", ["other"])] }
    (Or.inl (by unfold NoStateCookie; decide))
    (Or.inr (Or.inr ⟨{ Name := "oauthstate", Value := "X" }, "timeout", rfl, by decide, rfl⟩))
    ).2.2.2.1 rfl

/-! ## The callback: success -/

/-- C6, as stated, fails: on a matching callback with a successful exchange the body is
JSON text whose top-level value is a string, while the `validCredential` document is a
JSON object; the body does not have the shape of the document. -/
theorem callback_success_body_counterexample :
    jsonKind validCredential = some JSONKind.object
    ∧ jsonKind ((New sampleConfig).Callback sampleEnv NewRecorder matchingRequest).w.Body
        = some JSONKind.string
    ∧ jsonKind ((New sampleConfig).Callback sampleEnv NewRecorder matchingRequest).w.Body
        ≠ jsonKind validCredential := by
  have hobj : jsonKind validCredential = some JSONKind.object := by decide
  have hbody : jsonKind ((New sampleConfig).Callback sampleEnv NewRecorder matchingRequest).w.Body
      = some JSONKind.string := by
    rw [Callback_exchange_ok (New sampleConfig) sampleEnv matchingRequest
      { Name := "oauthstate", Value := "X" } { AccessToken := "tok" } rfl (by decide) rfl,
      (Write_fresh _).2.2]
    exact jsonKind_jsonMarshalString validCredential
  refine ⟨hobj, hbody, ?_⟩
  rw [hobj, hbody]
  decide

/-- C6, amended: when the cookie value equals the `state` parameter and the exchange
succeeds, the callback issues no redirect and writes a 200 response whose body is valid
JSON, namely the JSON string literal that encodes the text of `validCredential`,
followed by a line feed: read as JSON the body is a string, and that string is the
document text.  No callback produces both a redirect and a JSON body: each response is
either the 307 redirect to `/`, whose body is not JSON, or this 200 response with no
`Location`. -/
theorem callback_success (c : Operation) (env : Env) (r : Request) (ck : Cookie) (tok : Token)
    (hck : r.Cookie oauthCookieName = .ok ck)
    (heq : r.FormValue stateFormKey = ck.Value)
    (hex : env.exchange c.cmsConfig (r.FormValue codeFormKey) = .ok tok) :
    (c.Callback env NewRecorder r).w.Code = 200
    ∧ (c.Callback env NewRecorder r).w.HeaderGet "Location" = none
    ∧ (c.Callback env NewRecorder r).w.Body = jsonMarshalString validCredential ++ "\n"
    ∧ jsonKind (c.Callback env NewRecorder r).w.Body = some JSONKind.string
    ∧ jsonReadString (c.Callback env NewRecorder r).w.Body = some validCredential
    ∧ ∀ (env2 : Env) (r2 : Request),
        ((c.Callback env2 NewRecorder r2).w.Code = 307
          ∧ (c.Callback env2 NewRecorder r2).w.HeaderGet "Location" = some "/"
          ∧ jsonKind (c.Callback env2 NewRecorder r2).w.Body = none)
        ∨ ((c.Callback env2 NewRecorder r2).w.Code = 200
          ∧ (c.Callback env2 NewRecorder r2).w.HeaderGet "Location" = none
          ∧ jsonReadString (c.Callback env2 NewRecorder r2).w.Body = some validCredential) := by
  have hw := Callback_exchange_ok c env r ck tok hck heq hex
  have hf := Write_fresh (jsonMarshalString validCredential ++ "\n")
  refine ⟨?_, ?_, ?_, ?_, ?_, ?_⟩
  · rw [hw]; exact hf.1
  · rw [hw]; exact hf.2.1
  · rw [hw]; exact hf.2.2
  · rw [hw, hf.2.2]; exact jsonKind_jsonMarshalString validCredential
  · rw [hw, hf.2.2]; exact jsonReadString_jsonMarshalString validCredential
  · intro env2 r2
    rcases Callback_cases c env2 r2 with hab | ⟨ck2, tok2, h1, h2, h3⟩
    · left
      rw [Callback_abort c env2 r2 hab]
      exact ⟨Redirect_Code _ _ _ _ rfl, Redirect_Location_home _ _ _ rfl, Redirect_home_not_json r2⟩
    · right
      rw [Callback_exchange_ok c env2 r2 ck2 tok2 h1 h2 h3]
      refine ⟨hf.1, hf.2.1, ?_⟩
      rw [hf.2.2]
      exact jsonReadString_jsonMarshalString validCredential

/-- C6, amended, at a matching request with code `abc` and an accepting token endpoint. -/
theorem callback_success_witness :
    ((New sampleConfig).Callback sampleEnv NewRecorder matchingRequest).w.Code = 200
    ∧ jsonReadString ((New sampleConfig).Callback sampleEnv NewRecorder matchingRequest).w.Body
        = some validCredential :=
  ⟨(callback_success (New sampleConfig) sampleEnv matchingRequest
      { Name := "oauthstate", Value := "X" } { AccessToken := "tok" } rfl (by decide) rfl).1,
   (callback_success (New sampleConfig) sampleEnv matchingRequest
      { Name := "oauthstate", Value := "X" } { AccessToken := "tok" } rfl (by decide) rfl).2.2.2.2.1⟩

/-! ## Login -/

/-- C4: when the random source succeeds with the 16 bytes `b`, `Login` sets exactly one
cookie, `oauthstate`, whose value is the URL-safe base64 text of `b` (it decodes to `b`,
16 bytes) and answers 307.  The URL it redirects to is the authorization URL built from
the configuration, in which the `state` parameter is that cookie value: the URL is the
one built without state followed by `&state=` and the escaped cookie value.  For an
authorization endpoint that is an absolute URL (it starts with a scheme) `Location`
carries that URL: as built when the endpoint is ASCII, with the bytes outside ASCII
percent-escaped otherwise. -/
theorem login_issues_state (c : Operation) (env : Env) (r : Request) (b : List Byte)
    (hok : env.randErr = none) (hbytes : env.randBytes = b)
    (hlen : b.length = stateValueLength) :
    ∃ cookie : Cookie,
      (c.Login env NewRecorder r).w.SetCookies = [cookie]
      ∧ cookie.Name = oauthCookieName
      ∧ cookie.Value = EncodeToString b
      ∧ DecodeString cookie.Value = some b
      ∧ 16 ≤ b.length
      ∧ (c.Login env NewRecorder r).logs = []
      ∧ (c.Login env NewRecorder r).w.Code = 307
      ∧ (hasURLScheme c.cmsConfig.Endpoint.AuthURL = true →
          isASCII c.cmsConfig.Endpoint.AuthURL = true →
          (c.Login env NewRecorder r).w.HeaderGet "Location"
            = some (c.cmsConfig.AuthCodeURL cookie.Value))
      ∧ (hasURLScheme c.cmsConfig.Endpoint.AuthURL = true →
          (c.Login env NewRecorder r).w.HeaderGet "Location"
            = some (hexEscapeNonASCII (c.cmsConfig.AuthCodeURL cookie.Value)))
      ∧ (authCodeValues c.cmsConfig cookie.Value).lookup "state" = some cookie.Value
      ∧ c.cmsConfig.AuthCodeURL cookie.Value
          = c.cmsConfig.AuthCodeURL "" ++ "&state=" ++ QueryEscape cookie.Value := by
  have hstate : (generateStateOauthCookie env NewRecorder).1 = EncodeToString b := by
    rw [generateStateOauthCookie_state, randRead_full env _ (by
      rw [hbytes, hlen, List.length_replicate]), hbytes]
  have hne : EncodeToString b ≠ "" := hstate ▸ generateStateOauthCookie_ne_empty env NewRecorder
  refine ⟨{ Name := oauthCookieName, Value := EncodeToString b,
            Expires := some (env.now + defaultCookieExpiry * Minute) }, ?_, rfl, rfl,
    DecodeString_EncodeToString b, ?_, ?_, ?_, ?_, ?_, authCodeValues_state _ _ hne,
    AuthCodeURL_state _ _ hne⟩
  · rw [Login_SetCookies, hstate]
  · rw [hlen]; decide
  · rw [Login_logs, generateStateOauthCookie_logs, hok]
  · exact (Login_redirect c env r).1
  · intro hs ha
    rw [Login_redirect_absolute c env r hs ha, hstate]
  · intro hs
    rw [Login_redirect_scheme c env r hs, hstate]

set_option maxRecDepth 8000 in
/-- C4 at the random bytes 0, 1, ..., 15 and an absolute ASCII endpoint: the cookie value
and the redirect target. -/
theorem login_issues_state_witness :
    sampleEnv.randErr = none
    ∧ sampleEnv.randBytes.length = stateValueLength
    ∧ hasURLScheme (New sampleConfig).cmsConfig.Endpoint.AuthURL = true
    ∧ isASCII (New sampleConfig).cmsConfig.Endpoint.AuthURL = true
    ∧ ((New sampleConfig).Login sampleEnv NewRecorder {}).w.SetCookies.map Cookie.Value
        = ["AAECAwQFBgcICQoLDA0ODw=="]
    ∧ ((New sampleConfig).Login sampleEnv NewRecorder {}).w.HeaderGet "Location"
        = some ("https://auth.example/authorize?client_id=client"
            ++ "&redirect_uri=https%3A%2F%2Frp.example%2Fcallback&response_type=code"
            ++ "&scope=openid+profile&state=AAECAwQFBgcICQoLDA0ODw%3D%3D") := by
  obtain ⟨cookie, h1, _, h3, _, _, _, _, h8, _, _, _⟩ :=
    login_issues_state (New sampleConfig) sampleEnv {}
      [0, 1, 2, 3, 4, 5, 6, 7, 8, 9, 10, 11, 12, 13, 14, 15] rfl rfl rfl
  have hv : cookie.Value = "AAECAwQFBgcICQoLDA0ODw==" := by rw [h3]; decide
  refine ⟨rfl, rfl, by decide, by decide, ?_, ?_⟩
  · rw [h1, List.map_cons, List.map_nil, hv]
  · rw [h8 (by decide) (by decide), hv]; decide

/-- C7, as stated, fails: with a random source that returns an error and delivers no
byte, `Login` still sets the state cookie, its value the base64 text of 16 zero bytes,
and still redirects 307 to the authorization URL carrying that value. -/
theorem login_random_failure_counterexample :
    failedRandEnv.randErr = some "entropy source unavailable"
    ∧ ((New sampleConfig).Login failedRandEnv NewRecorder {}).w.SetCookies.map Cookie.Value
        = ["AAAAAAAAAAAAAAAAAAAAAA=="]
    ∧ ((New sampleConfig).Login failedRandEnv NewRecorder {}).w.Code = 307
    ∧ ((New sampleConfig).Login failedRandEnv NewRecorder {}).w.HeaderGet "Location"
        = some ((New sampleConfig).cmsConfig.AuthCodeURL "AAAAAAAAAAAAAAAAAAAAAA==") := by
  refine ⟨rfl, ?_, (Login_redirect _ _ _).1, ?_⟩
  · rw [Login_SetCookies]; decide
  · rw [Login_redirect_absolute _ _ _ (by decide) (by decide)]
    have : (generateStateOauthCookie failedRandEnv NewRecorder).1 = "AAAAAAAAAAAAAAAAAAAAAA==" := by
      decide
    rw [this]

/-- C7, amended: when the random source returns an error `e` (as `rand.Read` can up to
Go 1.23; from Go 1.24 it returns none), `Login` does not fail.  It logs `e` at error
level, sets the one state cookie and answers 307, the state being the base64 text of the
16-byte buffer as the read left it: the bytes delivered, then zeros (all zeros when
nothing was delivered).  For an authorization endpoint that is an absolute URL
`Location` carries the authorization URL built with that state: as built when the
endpoint is ASCII, with the bytes outside ASCII percent-escaped otherwise. -/
theorem login_random_failure (c : Operation) (env : Env) (r : Request) (e : Error)
    (herr : env.randErr = some e) :
    (c.Login env NewRecorder r).logs = [{ level := Level.ErrorLevel, msg := e }]
    ∧ (c.Login env NewRecorder r).w.SetCookies.map Cookie.Value
        = [EncodeToString (env.randBytes.take 16
            ++ List.replicate (16 - (env.randBytes.take 16).length) 0)]
    ∧ (c.Login env NewRecorder r).w.Code = 307
    ∧ (hasURLScheme c.cmsConfig.Endpoint.AuthURL = true →
        isASCII c.cmsConfig.Endpoint.AuthURL = true →
        (c.Login env NewRecorder r).w.HeaderGet "Location"
          = some (c.cmsConfig.AuthCodeURL (EncodeToString (env.randBytes.take 16
              ++ List.replicate (16 - (env.randBytes.take 16).length) 0))))
    ∧ (hasURLScheme c.cmsConfig.Endpoint.AuthURL = true →
        (c.Login env NewRecorder r).w.HeaderGet "Location"
          = some (hexEscapeNonASCII (c.cmsConfig.AuthCodeURL (EncodeToString
              (env.randBytes.take 16
                ++ List.replicate (16 - (env.randBytes.take 16).length) 0)))))
    ∧ (env.randBytes = [] →
        (c.Login env NewRecorder r).w.SetCookies.map Cookie.Value
          = ["AAAAAAAAAAAAAAAAAAAAAA=="]) := by
  have hstate : (generateStateOauthCookie env NewRecorder).1
      = EncodeToString (env.randBytes.take 16
          ++ List.replicate (16 - (env.randBytes.take 16).length) 0) := by
    rw [generateStateOauthCookie_state]
    exact congrArg EncodeToString (randRead_zeros env 16)
  refine ⟨?_, ?_, (Login_redirect c env r).1, ?_, ?_, ?_⟩
  · rw [Login_logs, generateStateOauthCookie_logs, herr]
  · rw [Login_SetCookies, List.map_cons, List.map_nil, hstate]
  · intro hs ha
    rw [Login_redirect_absolute c env r hs ha, hstate]
  · intro hs
    rw [Login_redirect_scheme c env r hs, hstate]
  · intro hnil
    have hz : EncodeToString (([] : List Byte).take 16
        ++ List.replicate (16 - (([] : List Byte).take 16).length) 0)
        = "AAAAAAAAAAAAAAAAAAAAAA==" := by decide
    rw [Login_SetCookies, List.map_cons, List.map_nil, hstate, hnil]
    exact congrArg (fun v => [v]) hz

set_option maxRecDepth 8000 in
/-- C7, amended, at a random source that fails after delivering the bytes 255 and 254,
with an absolute ASCII endpoint. -/
theorem login_random_failure_witness :
    ((New sampleConfig).Login
        { randBytes := [255, 254], randErr := some "short read", now := 0,
          exchange := fun _ _ => .ok {} } NewRecorder {}).w.SetCookies.map Cookie.Value
      = ["__4AAAAAAAAAAAAAAAAAAA=="]
    ∧ ((New sampleConfig).Login
        { randBytes := [255, 254], randErr := some "short read", now := 0,
          exchange := fun _ _ => .ok {} } NewRecorder {}).w.HeaderGet "Location"
      = some ("https://auth.example/authorize?client_id=client"
            ++ "&redirect_uri=https%3A%2F%2Frp.example%2Fcallback&response_type=code"
            ++ "&scope=openid+profile&state=__4AAAAAAAAAAAAAAAAAAA%3D%3D") := by
  have h := login_random_failure (New sampleConfig)
    { randBytes := [255, 254], randErr := some "short read", now := 0,
      exchange := fun _ _ => .ok {} } {} "short read" rfl
  refine ⟨?_, ?_⟩
  · rw [h.2.1]; decide
  · rw [h.2.2.2.1 (by decide) (by decide)]; decide

/-- C8, as stated, fails: the state issued from the random bytes 0, 1, ..., 15 has
24 characters, fewer than 32. -/
theorem login_state_length_counterexample :
    ((New sampleConfig).Login sampleEnv NewRecorder {}).w.SetCookies.map Cookie.Value
        = ["AAECAwQFBgcICQoLDA0ODw=="]
    ∧ (generateStateOauthCookie sampleEnv NewRecorder).1 = "AAECAwQFBgcICQoLDA0ODw=="
    ∧ (generateStateOauthCookie sampleEnv NewRecorder).1.length = 24
    ∧ ¬ 32 ≤ (generateStateOauthCookie sampleEnv NewRecorder).1.length := by
  refine ⟨?_, by decide, by decide, by decide⟩
  rw [Login_SetCookies]; decide

/-- C8, amended: for every login request the state placed in the cookie and in the
redirect URL is a base64url string of exactly 24 characters: 22 characters of the
URL-safe alphabet followed by the padding `==`.  The `Set-Cookie` line carries it as it
is; the authorization URL handed to the redirect ends in `&state=`, the 22 characters
and `%3D%3D`, and so does `Location` for an authorization endpoint that is an absolute
URL (it starts with a scheme). -/
theorem login_state_shape (c : Operation) (env : Env) (r : Request) :
    ∃ pre : List Char,
      (generateStateOauthCookie env NewRecorder).1 = String.mk (pre ++ [StdPadding, StdPadding])
      ∧ pre.length = 22
      ∧ (∀ ch ∈ pre, ch ∈ encodeURL)
      ∧ (generateStateOauthCookie env NewRecorder).1.length = 24
      ∧ (c.Login env NewRecorder r).w.SetCookies.map Cookie.Value
          = [(generateStateOauthCookie env NewRecorder).1]
      ∧ sanitizeCookieValue (generateStateOauthCookie env NewRecorder).1
          = (generateStateOauthCookie env NewRecorder).1
      ∧ c.cmsConfig.AuthCodeURL (generateStateOauthCookie env NewRecorder).1
          = c.cmsConfig.AuthCodeURL "" ++ "&state=" ++ String.mk pre ++ "%3D%3D"
      ∧ (hasURLScheme c.cmsConfig.Endpoint.AuthURL = true →
          (c.Login env NewRecorder r).w.HeaderGet "Location"
            = some (hexEscapeNonASCII (c.cmsConfig.AuthCodeURL "")
                ++ "&state=" ++ String.mk pre ++ "%3D%3D")) := by
  have hlen16 : (randRead env (List.replicate stateValueLength 0)).1.length = 16 := by
    rw [randRead_length, List.length_replicate]; rfl
  obtain ⟨pre, hpre, hmem⟩ := base64Encode_pad2 _ (show _ % 3 = 1 by rw [hlen16])
  have hstate : (generateStateOauthCookie env NewRecorder).1
      = String.mk (pre ++ [StdPadding, StdPadding]) := by
    rw [generateStateOauthCookie_state]
    exact congrArg String.mk hpre
  have hl := generateStateOauthCookie_length env NewRecorder
  have hpl : pre.length = 22 := by
    have h2 : (String.mk (pre ++ [StdPadding, StdPadding])).length = 24 := hstate ▸ hl
    have h3 : (pre ++ [StdPadding, StdPadding]).length = 24 := h2
    simp only [List.length_append, List.length_cons, List.length_nil] at h3
    omega
  have hurl : c.cmsConfig.AuthCodeURL (generateStateOauthCookie env NewRecorder).1
      = c.cmsConfig.AuthCodeURL "" ++ "&state=" ++ String.mk pre ++ "%3D%3D" := by
    rw [AuthCodeURL_state _ _ (generateStateOauthCookie_ne_empty env NewRecorder), hstate,
      QueryEscape_padded pre hmem, String.append_assoc, String.append_assoc,
      String.append_assoc]
  have hpreA : isASCII (String.mk pre) = true :=
    (isASCII_iff _).mpr (fun ch hch => alphabet_ascii ch (hmem ch hch))
  refine ⟨pre, hstate, hpl, hmem, hl, ?_, ?_, hurl, ?_⟩
  · rw [Login_SetCookies]; rfl
  · rw [generateStateOauthCookie_state]
    exact sanitizeCookieValue_base64 _
  · intro hs
    rw [Login_redirect_scheme c env r hs, hurl, hexEscapeNonASCII_append,
      hexEscapeNonASCII_append, hexEscapeNonASCII_append,
      hexEscapeNonASCII_of_isASCII "&state=" (by decide),
      hexEscapeNonASCII_of_isASCII _ hpreA,
      hexEscapeNonASCII_of_isASCII "%3D%3D" (by decide)]

set_option maxRecDepth 8000 in
/-- C8, amended, at the random bytes 0, 1, ..., 15 and an absolute endpoint: the state
and the redirect target. -/
theorem login_state_shape_witness :
    hasURLScheme (New sampleConfig).cmsConfig.Endpoint.AuthURL = true
    ∧ (generateStateOauthCookie sampleEnv NewRecorder).1 = "AAECAwQFBgcICQoLDA0ODw=="
    ∧ ((New sampleConfig).Login sampleEnv NewRecorder {}).w.HeaderGet "Location"
        = some ("https://auth.example/authorize?client_id=client"
            ++ "&redirect_uri=https%3A%2F%2Frp.example%2Fcallback&response_type=code"
            ++ "&scope=openid+profile&state=AAECAwQFBgcICQoLDA0ODw%3D%3D") := by
  obtain ⟨pre, hstate, _, _, _, _, _, _, hloc⟩ :=
    login_state_shape (New sampleConfig) sampleEnv {}
  have hg : (generateStateOauthCookie sampleEnv NewRecorder).1 = "AAECAwQFBgcICQoLDA0ODw==" := by
    decide
  have hpre : pre = "AAECAwQFBgcICQoLDA0ODw".toList := by
    have h1 : pre ++ [StdPadding, StdPadding]
        = "AAECAwQFBgcICQoLDA0ODw".toList ++ [StdPadding, StdPadding] := by
      have h2 := congrArg String.toList (hstate.symm.trans hg)
      exact h2
    exact List.append_cancel_right h1
  refine ⟨by decide, hg, ?_⟩
  rw [hloc (by decide), hpre]
  decide

/-! ## The state cookie -/

/-- C9: for every issue time `env.now`, `generateStateOauthCookie` sets one cookie: its
name is `oauthstate`, its value is the state the function returns, its expiry is the
issue time plus 20 minutes, and every other cookie field is left at its zero value;
the rest of the recorder is untouched. -/
theorem state_cookie_fields (env : Env) (w : ResponseRecorder) :
    (generateStateOauthCookie env w).2.1.SetCookies
        = w.SetCookies ++
          [{ Name := "oauthstate", Value := (generateStateOauthCookie env w).1,
             Path := "", Domain := "", Expires := some (env.now + 1200000000000),
             RawExpires := "", MaxAge := 0, Secure := false, HttpOnly := false,
             SameSite := 0, Raw := "", Unparsed := [] }]
    ∧ defaultCookieExpiry * Minute = 20 * (60 * 1000000000)
    ∧ (generateStateOauthCookie env w).2.1.Header = w.Header
    ∧ (generateStateOauthCookie env w).2.1.Body = w.Body
    ∧ (generateStateOauthCookie env w).2.1.Code = w.Code := by
  rw [generateStateOauthCookie_w]
  refine ⟨rfl, by decide, rfl, rfl, rfl⟩

/-! ## Handler registration -/

/-- C10: for every configuration, `New` returns an operation holding that configuration
whose `GetRESTHandlers` yields exactly two descriptors, in order: path `/login`, method
GET, handler `Login`, then path `/callback`, method GET, handler `Callback`, both bound
to the operation returned.  The accessor reads the operation without changing it, so
every call yields this list. -/
theorem new_registers_handlers (config : Config) :
    (New config).GetRESTHandlers
        = [NewHTTPHandler "/login" "GET" (New config).Login,
           NewHTTPHandler "/callback" "GET" (New config).Callback]
    ∧ (New config).GetRESTHandlers.length = 2
    ∧ (New config).GetRESTHandlers.map (fun h => (h.Path, h.Method))
        = [("/login", "GET"), ("/callback", "GET")]
    ∧ (New config).GetRESTHandlers.map Handler.Handle
        = [(New config).Login, (New config).Callback]
    ∧ (New config).cmsConfig = config.OAuth2Config :=
  ⟨rfl, rfl, rfl, rfl, rfl⟩

/-! ## The callback: an absent state parameter -/

/-- The callback reads the request through its method, its `oauthstate` cookie and
its `state` and `code` form values only. -/
theorem Callback_congr (c : Operation) (env : Env) (r r2 : Request)
    (hm : r2.Method = r.Method)
    (hck : r2.Cookie oauthCookieName = r.Cookie oauthCookieName)
    (hstate : r2.FormValue stateFormKey = r.FormValue stateFormKey)
    (hcode : r2.FormValue codeFormKey = r.FormValue codeFormKey) :
    (c.Callback env NewRecorder r2).w = (c.Callback env NewRecorder r).w
    ∧ (c.Callback env NewRecorder r2).exchanged = (c.Callback env NewRecorder r).exchanged
    ∧ (c.Callback env NewRecorder r2).logs = (c.Callback env NewRecorder r).logs := by
  have hred : Redirect NewRecorder r2 "/" StatusTemporaryRedirect
      = Redirect NewRecorder r "/" StatusTemporaryRedirect := by
    rw [Redirect_method r2, Redirect_method r, hm]
  unfold Operation.Callback
  rw [hck, hstate, hcode, hred]
  exact ⟨rfl, rfl, rfl⟩

/-- C11: for every code, a callback request that carries an `oauthstate` cookie with
the empty value and no `state` parameter at all passes state validation: the form
lookup of the absent parameter yields the empty string, no mismatch is logged and the
token exchange is invoked, once, with the code.  The request is handled exactly as one
that carries the `state` parameter with the empty value. -/
theorem callback_empty_cookie_absent_state (c : Operation) (env : Env) (r : Request)
    (ck : Cookie) (code : String)
    (hck : r.Cookie oauthCookieName = .ok ck)
    (hempty : ck.Value = "")
    (habsent : r.Form.lookup stateFormKey = none)
    (hcode : r.FormValue codeFormKey = code) :
    r.FormValue stateFormKey = ""
    ∧ (c.Callback env NewRecorder r).exchanged = [code]
    ∧ { level := Level.WarnLevel, msg := "invalid oauth state" }
        ∉ (c.Callback env NewRecorder r).logs
    ∧ ∀ r2 : Request, r2.Method = r.Method → r2.Cookies = r.Cookies →
        r2.Form.lookup stateFormKey = some [""] → r2.FormValue codeFormKey = code →
        (c.Callback env NewRecorder r2).w = (c.Callback env NewRecorder r).w
        ∧ (c.Callback env NewRecorder r2).exchanged = (c.Callback env NewRecorder r).exchanged
        ∧ (c.Callback env NewRecorder r2).logs = (c.Callback env NewRecorder r).logs := by
  have hform : r.FormValue stateFormKey = "" := by
    unfold Request.FormValue
    rw [habsent]
  have heq : r.FormValue stateFormKey = ck.Value := by rw [hform, hempty]
  refine ⟨hform, ?_, ?_, ?_⟩
  · unfold Operation.Callback
    rw [hck]
    simp only [ne_eq, heq, not_true_eq_false, ite_false, hcode]
    cases env.exchange c.cmsConfig code <;> rfl
  · unfold Operation.Callback
    rw [hck]
    simp only [ne_eq, heq, not_true_eq_false, ite_false, hcode]
    cases env.exchange c.cmsConfig code <;>
      simp [Operation.writeResponse, EncoderEncode]
  · intro r2 hm hcookies hstate2 hcode2
    have hform2 : r2.FormValue stateFormKey = "" := by
      unfold Request.FormValue
      rw [hstate2]
    have hck2 : r2.Cookie oauthCookieName = r.Cookie oauthCookieName := by
      unfold Request.Cookie
      rw [hcookies]
    exact Callback_congr c env r r2 hm hck2 (by rw [hform2, hform]) (by rw [hcode2, hcode])

/-- C11 at a request with cookie `oauthstate=`, code `abc` and no `state`, sent to a
token endpoint that accepts every code. -/
theorem callback_empty_cookie_absent_state_witness :
    ({ Cookies := [{ Name := "oauthstate", Value := "" }],
       Form := [("code", ["abc"])] } : Request).Form.lookup stateFormKey = none
    ∧ ((New sampleConfig).Callback sampleEnv NewRecorder
        { Cookies := [{ Name := "oauthstate", Value := "" }],
          Form := [("code", ["abc"])] }).exchanged = ["abc"]
    ∧ ((New sampleConfig).Callback sampleEnv NewRecorder
        { Cookies := [{ Name := "oauthstate", Value := "" }],
          Form := [("code", ["abc"])] }).w.Code = 200 := by
  have h := callback_empty_cookie_absent_state (New sampleConfig) sampleEnv
    { Cookies := [{ Name := "oauthstate", Value := "" }], Form := [("code", ["abc"])] }
    { Name := "oauthstate", Value := "" } "abc" rfl rfl (by decide) (by decide)
  refine ⟨by decide, h.2.1, ?_⟩
  rw [Callback_exchange_ok (New sampleConfig) sampleEnv
    { Cookies := [{ Name := "oauthstate", Value := "" }], Form := [("code", ["abc"])] }
    { Name := "oauthstate", Value := "" } { AccessToken := "tok" } rfl (by decide) rfl]
  exact (Write_fresh _).1

end EdgeSandbox
